import Mathlib

/-!
# IPv6 Routing extension header codec (gopacket-srv6, `main.go`)

A shallow embedding of the decoder `DecodeFromBytes`, its helper
`gopacketDecodeIPv6ExtensionBase`, and the serializer `SerializeTo`.

Conventions of the embedding:

* a Go `byte`/`uint8`/`uint16` is a `Nat`, meant to be below 256 (65536 for
  `uint16`), and a Go `int` is a `Nat` or, where the source subtracts, an
  `Int`; where the source converts to a narrower type the reduction `% 256`
  is written out;
* a Go `[]byte` is a `List Nat`, a `[]net.IP` is a `List (List Nat)`;
  a nil slice and an empty slice are both `[]`;
* a function that can fault at run time (index or slice out of range)
  returns an `Option`, `none` being the run-time fault;
* the Go `error` result is an `Option Error`, `none` being `nil`;
* a method with a pointer receiver returns the receiver after the call,
  also when it returns an error.
-/

namespace GopacketSrv6

/-! ## Errors -/

/-- The errors built with `fmt.Errorf` in `main.go`, one constructor for each
message text, with the formatted numbers as arguments. -/
inductive Error where
  /-- "Invalid ip6-extension header. Length %d less than 2" -/
  | extLessThan2 (len : Nat)
  /-- "Invalid ip6-extension header. Length %d less than specified length %d" -/
  | extLessThanSpecified (len : Nat) (actual : Nat)
  /-- "IPv6Routing: data too short" -/
  | dataTooShort
  /-- "IPv6Routing: data length mismatch" -/
  | dataLengthMismatch
  /-- "IPv6Routing: RoutingType %d not supported" -/
  | routingTypeNotSupported (rt : Nat)
  deriving DecidableEq

/-- The three kinds of failure of the specification's error taxonomy. -/
inductive ErrorKind where
  | TruncatedInput
  | LengthMismatch
  | UnsupportedRoutingType
  deriving DecidableEq

/-- The kind of each error message, following the specification: the two
"too short" messages (fewer than 2 octets, "data too short") are
`TruncatedInput`, the two messages comparing the buffer with the length the
header announces are `LengthMismatch`. -/
def Error.kind : Error → ErrorKind
  | .extLessThan2 _ => .TruncatedInput
  | .extLessThanSpecified _ _ => .LengthMismatch
  | .dataTooShort => .TruncatedInput
  | .dataLengthMismatch => .LengthMismatch
  | .routingTypeNotSupported _ => .UnsupportedRoutingType

/-! ## The collaborators from gopacket -/

/-- The interface `gopacket.DecodeFeedback` as the decoder sees it: its only
method is `SetTruncated`, and the state records how many times it was called. -/
structure DecodeFeedback where
  SetTruncatedCalls : Nat := 0
  deriving DecidableEq

/-- One call of `df.SetTruncated()`. -/
def DecodeFeedback.SetTruncated (df : DecodeFeedback) : DecodeFeedback :=
  { df with SetTruncatedCalls := df.SetTruncatedCalls + 1 }

/-- The options `gopacket.SerializeOptions`. -/
structure SerializeOptions where
  FixLengths : Bool := false
  ComputeChecksums : Bool := false
  deriving DecidableEq

/-- The interface `gopacket.SerializeBuffer` as the serializer sees it: `Bytes`
is the current content, and `fresh k` is the value octet `k` of a newly
prepended region holds before it is written (gopacket leaves it indeterminate). -/
structure SerializeBuffer where
  Bytes : List Nat := []
  fresh : Nat → Nat := fun _ => 0

/-- The region returned by `b.PrependBytes(num)`: `num` octets in front of the
current content, not yet written. gopacket's buffer never returns an error. -/
def SerializeBuffer.PrependBytes (b : SerializeBuffer) (num : Nat) : List Nat :=
  (List.range num).map b.fresh

/-- `net.IP.To16`: a 4-octet address becomes the 16-octet IPv4-mapped address,
a 16-octet address is returned as it is, anything else gives nil. -/
def To16 (ip : List Nat) : List Nat :=
  if ip.length = 4 then [0, 0, 0, 0, 0, 0, 0, 0, 0, 0, 0xff, 0xff] ++ ip
  else if ip.length = 16 then ip
  else []

/-! ## Slices -/

/-- The slice expression `data[lo:hi]`; it faults unless `lo ≤ hi ≤ len(data)`.
Go allows `hi` up to `cap(data)`; the embedding knows no capacity beyond the
length, so it faults at least as often as the source. -/
def slice (data : List Nat) (lo hi : Nat) : Option (List Nat) :=
  if lo ≤ hi ∧ hi ≤ data.length then some ((data.drop lo).take (hi - lo)) else none

/-- The assignment `bytes[k] = v`; it faults unless `k < len(bytes)`. -/
def put (bytes : List Nat) (k v : Nat) : Option (List Nat) :=
  if k < bytes.length then some (bytes.set k v) else none

/-- The built-in `copy(dst[off:], src)`: the slice faults unless
`off ≤ len(dst)`, and `min(len(dst) - off, len(src))` octets are copied. -/
def copyAt (dst : List Nat) (off : Nat) (src : List Nat) : Option (List Nat) :=
  if off ≤ dst.length then
    some (dst.take off ++ src.take (dst.length - off)
      ++ dst.drop (off + min (dst.length - off) src.length))
  else none

/-- `binary.BigEndian.Uint16(b)`: faults unless `len(b) ≥ 2`. -/
def beUint16 (b : List Nat) : Option Nat :=
  match b with
  | b0 :: b1 :: _ => some (b0 * 256 + b1)
  | _ => none

/-- `binary.BigEndian.PutUint16(bytes[off:], v)`: writes `byte(v >> 8)` and
`byte(v)` at `off` and `off + 1`; faults unless both are in range. -/
def bePutUint16 (bytes : List Nat) (off v : Nat) : Option (List Nat) :=
  if off + 1 < bytes.length then
    some ((bytes.set off (v / 256 % 256)).set (off + 1) (v % 256))
  else none

/-! ## The data model -/

/-- The struct `gopacketIpv6ExtensionBase`, with the `Contents` and `Payload`
of the embedded `layers.BaseLayer`. -/
structure gopacketIpv6ExtensionBase where
  Contents : List Nat := []
  Payload : List Nat := []
  NextHeader : Nat := 0
  HeaderLength : Nat := 0
  ActualLength : Nat := 0
  deriving DecidableEq

/-- The struct `IPv6Routing`. -/
structure IPv6Routing extends gopacketIpv6ExtensionBase where
  RoutingType : Nat := 0
  SegmentsLeft : Nat := 0
  Reserved : List Nat := []
  LastEntry : Nat := 0
  Flags : Nat := 0
  Tag : Nat := 0
  SourceRoutingIPs : List (List Nat) := []
  deriving DecidableEq

/-- What a call of `gopacketDecodeIPv6ExtensionBase` leaves behind. -/
structure BaseResult where
  base : gopacketIpv6ExtensionBase
  df : DecodeFeedback
  err : Option Error
  deriving DecidableEq

/-- What a call of `DecodeFromBytes` leaves behind: the receiver, the feedback
hook and the returned error. -/
structure DecodeResult where
  hdr : IPv6Routing
  df : DecodeFeedback
  err : Option Error
  deriving DecidableEq

/-- What a call of `SerializeTo` leaves behind: the receiver, the content of
the buffer and the returned error. -/
structure SerializeResult where
  hdr : IPv6Routing
  buf : List Nat
  err : Option Error
  deriving DecidableEq

/-! ## The decoder -/

/-- `gopacketDecodeIPv6ExtensionBase(data, df)`. -/
def gopacketDecodeIPv6ExtensionBase (data : List Nat) (df : DecodeFeedback) :
    Option BaseResult :=
  if data.length < 2 then
    some ⟨{}, df.SetTruncated, some (.extLessThan2 data.length)⟩
  else do
    let nextHeader ← data[0]?
    let headerLength ← data[1]?
    let actualLength := headerLength * 8 + 8
    if data.length < actualLength then
      some ⟨{}, df, some (.extLessThanSpecified data.length actualLength)⟩
    else do
      let contents ← slice data 0 actualLength
      let payload ← slice data actualLength data.length
      some ⟨{ Contents := contents, Payload := payload, NextHeader := nextHeader,
              HeaderLength := headerLength, ActualLength := actualLength }, df, none⟩

/-- The loop `for j := 0; j < int(i.LastEntry); j++` of `DecodeFromBytes`,
about to test its condition at index `j` with `k = LastEntry - j` iterations
left: each iteration stores `data[8+j*16 : 8+j*16+16]` in `ips[j]`. -/
def decodeLoop (data : List Nat) : Nat → Nat → List (List Nat) → Option (List (List Nat))
  | 0, _, ips => some ips
  | k + 1, j, ips => do
    let ip ← slice data (8 + j * 16) (8 + j * 16 + 16)
    if j < ips.length then decodeLoop data k (j + 1) (ips.set j ip) else none

/-- `(i *IPv6Routing) DecodeFromBytes(data, df)`. -/
def DecodeFromBytes (i : IPv6Routing) (data : List Nat) (df : DecodeFeedback) :
    Option DecodeResult := do
  let r ← gopacketDecodeIPv6ExtensionBase data df
  let i := { i with togopacketIpv6ExtensionBase := r.base }
  let df := r.df
  if r.err.isSome then
    some ⟨i, df, r.err⟩
  else if data.length < 8 then
    some ⟨i, df, some .dataTooShort⟩
  else do
    let b0 ← data[0]?
    let i := { i with NextHeader := b0 }
    let b1 ← data[1]?
    let i := { i with HeaderLength := b1 }
    let b2 ← data[2]?
    let i := { i with RoutingType := b2 }
    let b3 ← data[3]?
    let i := { i with SegmentsLeft := b3 }
    if (data.length : Int) - 8 ≠ (i.HeaderLength : Int) * 8 then
      some ⟨i, df, some .dataLengthMismatch⟩
    else
      let afterSwitch : Option (IPv6Routing × Option Error) :=
        if i.RoutingType = 0 then do
          let reserved ← slice data 4 8
          some ({ i with Reserved := reserved }, none)
        else if i.RoutingType = 4 then do
          let b4 ← data[4]?
          let i := { i with LastEntry := b4 }
          let b5 ← data[5]?
          let i := { i with Flags := b5 }
          let tag ← (slice data 6 8).bind beUint16
          let i := { i with Tag := tag }
          if (data.length : Int) - 8 < (i.LastEntry : Int) * 16 then
            some (i, some .dataTooShort)
          else some (i, none)
        else
          some (i, some (.routingTypeNotSupported i.RoutingType))
      match afterSwitch with
      | none => none
      | some (i, some e) => some ⟨i, df, some e⟩
      | some (i, none) => do
        let ips ← decodeLoop data i.LastEntry 0 (List.replicate i.LastEntry [])
        some ⟨{ i with SourceRoutingIPs := ips }, df, none⟩

/-! ## The decoder registered with gopacket -/

/-- The interface `gopacket.PacketBuilder` as `decodeIPv6Routing` sees it: the
feedback hook it embeds, the layers added so far, the protocol and payload
each `NextDecoder` call passed on, and the result of the next decoder. -/
structure PacketBuilder where
  df : DecodeFeedback := {}
  layers : List IPv6Routing := []
  handed : List (Nat × List Nat) := []
  next : Nat → List Nat → Option Error := fun _ _ => none

/-- The call `p.AddLayer(l)`. -/
def PacketBuilder.AddLayer (p : PacketBuilder) (l : IPv6Routing) : PacketBuilder :=
  { p with layers := p.layers ++ [l] }

/-- The call `p.NextDecoder(next)` after layer `l` was added: the payload of
`l` goes to the decoder of `next`; gopacket returns nil on an empty payload. -/
def PacketBuilder.NextDecoder (p : PacketBuilder) (l : IPv6Routing) (next : Nat) :
    PacketBuilder × Option Error :=
  ({ p with handed := p.handed ++ [(next, l.Payload)] },
    if l.Payload = [] then none else p.next next l.Payload)

/-- `decodeIPv6Routing(data, p)`. -/
def decodeIPv6Routing (data : List Nat) (p : PacketBuilder) :
    Option (PacketBuilder × Option Error) := do
  let r ← DecodeFromBytes {} data p.df
  let p := { p with df := r.df }
  let p := p.AddLayer r.hdr
  match r.err with
  | some e => some (p, some e)
  | none => some (p.NextDecoder r.hdr r.hdr.NextHeader)

/-! ## The serializer -/

/-- The loop `for j, ip := range i.SourceRoutingIPs` of `SerializeTo`, at index
`j` with the addresses `ips` left: `copy(bytes[8+j*16:], ip.To16())`. -/
def writeSegments (bytes : List Nat) : Nat → List (List Nat) → Option (List Nat)
  | _, [] => some bytes
  | j, ip :: ips => do
    let bytes ← copyAt bytes (8 + j * 16) (To16 ip)
    writeSegments bytes (j + 1) ips

/-- `(i *IPv6Routing) SerializeTo(b, opts)`. The region obtained from
`PrependBytes` is part of the buffer, so what has been written to it when the
call returns is in the buffer, in front of the previous content. -/
def SerializeTo (i : IPv6Routing) (b : SerializeBuffer) (opts : SerializeOptions) :
    Option SerializeResult := do
  let bytes := b.PrependBytes (8 + i.SourceRoutingIPs.length * 16)
  let i := if opts.FixLengths then
      { i with HeaderLength := (i.SourceRoutingIPs.length * 2) % 256 } else i
  let bytes ← put bytes 0 i.NextHeader
  let bytes ← put bytes 1 i.HeaderLength
  let bytes ← put bytes 2 i.RoutingType
  let bytes ← put bytes 3 i.SegmentsLeft
  if i.RoutingType = 0 then do
    let bytes ← copyAt bytes 4 i.Reserved
    let bytes ← writeSegments bytes 0 i.SourceRoutingIPs
    some ⟨i, bytes ++ b.Bytes, none⟩
  else if i.RoutingType = 4 then do
    let i := if opts.FixLengths then
        { i with LastEntry := (i.SourceRoutingIPs.length % 256 + 255) % 256 } else i
    let bytes ← put bytes 4 i.LastEntry
    let bytes ← put bytes 5 i.Flags
    let bytes ← bePutUint16 bytes 6 i.Tag
    let bytes ← writeSegments bytes 0 i.SourceRoutingIPs
    some ⟨i, bytes ++ b.Bytes, none⟩
  else
    some ⟨i, bytes ++ b.Bytes, some (.routingTypeNotSupported i.RoutingType)⟩

/-! ## Intermediate states -/

/-- The header after the four common octets have been stored (lines 69-79). -/
def afterCommon (i : IPv6Routing) (data : List Nat) : IPv6Routing :=
  { i with
    Contents := data.take (data.getD 1 0 * 8 + 8)
    Payload := data.drop (data.getD 1 0 * 8 + 8)
    ActualLength := data.getD 1 0 * 8 + 8
    NextHeader := data.getD 0 0
    HeaderLength := data.getD 1 0
    RoutingType := data.getD 2 0
    SegmentsLeft := data.getD 3 0 }

/-- The header after the Segment Routing octets 4-7 have been stored (lines 87-89). -/
def afterSRH (i : IPv6Routing) (data : List Nat) : IPv6Routing :=
  { afterCommon i data with
    LastEntry := data.getD 4 0
    Flags := data.getD 5 0
    Tag := data.getD 6 0 * 256 + data.getD 7 0 }

/-- The header as `SerializeTo` leaves it for routing type 4 (lines 121-123 and
132-134): with `FixLengths` the two length fields are recomputed. -/
def afterFixLengths (i : IPv6Routing) (opts : SerializeOptions) : IPv6Routing :=
  if opts.FixLengths then
    { i with
      HeaderLength := (i.SourceRoutingIPs.length * 2) % 256
      LastEntry := (i.SourceRoutingIPs.length % 256 + 255) % 256 }
  else i

/-- The header as `SerializeTo` leaves it, for any routing type: with
`FixLengths` `HeaderLength` is recomputed (lines 121-123), and `LastEntry` too
when the routing type is 4 (lines 132-134). -/
def afterSerialize (i : IPv6Routing) (opts : SerializeOptions) : IPv6Routing :=
  if opts.FixLengths then
    if i.RoutingType = 4 then
      { i with
        HeaderLength := (i.SourceRoutingIPs.length * 2) % 256
        LastEntry := (i.SourceRoutingIPs.length % 256 + 255) % 256 }
    else { i with HeaderLength := (i.SourceRoutingIPs.length * 2) % 256 }
  else i

/-! ## Sample values -/

/-- A receiver that was used before: its type-specific fields are set. -/
def usedHeader : IPv6Routing :=
  { Reserved := [1, 2, 3, 4], LastEntry := 5, Flags := 6, Tag := 7, SourceRoutingIPs := [[8]] }

/-- A Segment Routing header with two addresses. -/
def twoSegments : IPv6Routing :=
  { NextHeader := 6, RoutingType := 4, SegmentsLeft := 1, Flags := 3, Tag := 258,
    SourceRoutingIPs := [List.replicate 16 10, List.replicate 16 20] }

/-- A Segment Routing header with one address. -/
def oneSegment : IPv6Routing :=
  { NextHeader := 6, RoutingType := 4, SourceRoutingIPs := [List.replicate 16 10] }

/-- A Segment Routing header with 128 addresses. -/
def manySegments : IPv6Routing :=
  { NextHeader := 6, RoutingType := 4,
    SourceRoutingIPs := List.replicate 128 (List.replicate 16 10) }

/-- A 24-octet Segment Routing header announcing one entry. -/
def oneEntryBuffer : List Nat :=
  [6, 2, 4, 0, 1, 0, 0, 0] ++ List.replicate 16 10

/-- What `DecodeFromBytes` makes of `oneEntryBuffer` with a fresh receiver. -/
def oneEntryDecoded : DecodeResult :=
  ⟨{ Contents := oneEntryBuffer, Payload := [], NextHeader := 6, HeaderLength := 2,
     ActualLength := 24, RoutingType := 4, LastEntry := 1,
     SourceRoutingIPs := [List.replicate 16 10] }, {}, none⟩

/-- A Segment Routing header without addresses. -/
def noSegments : IPv6Routing :=
  { NextHeader := 6, RoutingType := 4 }

/-- A header of routing type 2, which the codec does not support. -/
def typeTwoHeader : IPv6Routing :=
  { NextHeader := 6, HeaderLength := 9, RoutingType := 2, SegmentsLeft := 1,
    SourceRoutingIPs := [List.replicate 16 10] }

/-- A buffer that already holds two octets; fresh octets read 9. -/
def usedBuffer : SerializeBuffer :=
  { Bytes := [7, 7], fresh := fun _ => 9 }

/-! ## Lemmas on the decoder -/

theorem eq_cons_of_eight_le (data : List Nat) (h : 8 ≤ data.length) :
    ∃ b0 b1 b2 b3 b4 b5 b6 b7 rest,
      data = b0 :: b1 :: b2 :: b3 :: b4 :: b5 :: b6 :: b7 :: rest := by
  match data, h with
  | b0 :: b1 :: b2 :: b3 :: b4 :: b5 :: b6 :: b7 :: rest, _ =>
    exact ⟨b0, b1, b2, b3, b4, b5, b6, b7, rest, rfl⟩

theorem take_succ_set (ips : List (List Nat)) (j : Nat) (ip : List Nat) (h : j < ips.length) :
    (ips.set j ip).take (j + 1) = ips.take j ++ [ip] := by
  induction ips generalizing j with
  | nil => simp at h
  | cons a t ih =>
    cases j with
    | zero => simp
    | succ j => simpa using ih j (by simpa using h)

theorem decodeLoop_eq (data : List Nat) :
    ∀ (k j : Nat) (ips : List (List Nat)), j + k = ips.length →
      8 + (j + k) * 16 ≤ data.length →
      decodeLoop data k j ips
        = some (ips.take j ++ (List.range' j k).map (fun m => (data.drop (8 + m * 16)).take 16)) := by
  intro k
  induction k with
  | zero =>
    intro j ips hj _
    simp [decodeLoop, ← hj]
  | succ k ih =>
    intro j ips hj hlen
    have hj' : j < ips.length := by omega
    have hs : slice data (8 + j * 16) (8 + j * 16 + 16)
        = some ((data.drop (8 + j * 16)).take 16) := by
      have : 8 + j * 16 + 16 ≤ data.length := by omega
      simp [slice, this]
    simp only [decodeLoop, hs, Option.bind_eq_bind, Option.some_bind, hj', if_true]
    rw [ih (j + 1) _ (by simp; omega) (by omega), take_succ_set _ _ _ hj', List.range'_succ]
    simp


theorem getElem?_eq_getD {data : List Nat} {k : Nat} (h : k < data.length) :
    data[k]? = some (data.getD k 0) := by
  simp [List.getD_eq_getElem?_getD, List.getElem?_eq_getElem h]

theorem slice_eq (data : List Nat) (lo hi : Nat) (h1 : lo ≤ hi) (h2 : hi ≤ data.length) :
    slice data lo hi = some ((data.drop lo).take (hi - lo)) := by
  simp [slice, h1, h2]

/-- The base parser on a buffer that holds the announced length. -/
theorem base_ok (data : List Nat) (df : DecodeFeedback)
    (h : data.getD 1 0 * 8 + 8 ≤ data.length) :
    gopacketDecodeIPv6ExtensionBase data df
      = some ⟨{ Contents := data.take (data.getD 1 0 * 8 + 8),
                Payload := data.drop (data.getD 1 0 * 8 + 8),
                NextHeader := data.getD 0 0, HeaderLength := data.getD 1 0,
                ActualLength := data.getD 1 0 * 8 + 8 }, df, none⟩ := by
  have h2 : ¬ data.length < 2 := by omega
  have h3 : ¬ data.length < data.getD 1 0 * 8 + 8 := by omega
  have e0 : data[0]? = some (data.getD 0 0) := getElem?_eq_getD (by omega)
  have e1 : data[1]? = some (data.getD 1 0) := getElem?_eq_getD (by omega)
  have s0 := slice_eq data 0 _ (Nat.zero_le _) h
  have s1 := slice_eq data _ _ h (Nat.le_refl _)
  simp only [gopacketDecodeIPv6ExtensionBase, h2, h3, if_false, e0, e1, s0, s1,
    Option.bind_eq_bind, Option.some_bind]
  simp

theorem base_short (data : List Nat) (df : DecodeFeedback) (h : data.length < 2) :
    gopacketDecodeIPv6ExtensionBase data df
      = some ⟨{}, df.SetTruncated, some (.extLessThan2 data.length)⟩ := by
  simp [gopacketDecodeIPv6ExtensionBase, h]

theorem base_less (data : List Nat) (df : DecodeFeedback) (h2 : 2 ≤ data.length)
    (h : data.length < data.getD 1 0 * 8 + 8) :
    gopacketDecodeIPv6ExtensionBase data df
      = some ⟨{}, df, some (.extLessThanSpecified data.length (data.getD 1 0 * 8 + 8))⟩ := by
  have h2 : ¬ data.length < 2 := by omega
  have e0 : data[0]? = some (data.getD 0 0) := getElem?_eq_getD (by omega)
  have e1 : data[1]? = some (data.getD 1 0) := getElem?_eq_getD (by omega)
  simp only [gopacketDecodeIPv6ExtensionBase, h2, h, if_false, if_true, e0, e1,
    Option.bind_eq_bind, Option.some_bind]


theorem decode_short (i : IPv6Routing) (data : List Nat) (df : DecodeFeedback)
    (h : data.length < 2) :
    DecodeFromBytes i data df
      = some ⟨{ i with togopacketIpv6ExtensionBase := {} }, df.SetTruncated,
              some (.extLessThan2 data.length)⟩ := by
  simp [DecodeFromBytes, base_short data df h]

theorem decode_less (i : IPv6Routing) (data : List Nat) (df : DecodeFeedback)
    (h2 : 2 ≤ data.length) (h : data.length < data.getD 1 0 * 8 + 8) :
    DecodeFromBytes i data df
      = some ⟨{ i with togopacketIpv6ExtensionBase := {} }, df,
              some (.extLessThanSpecified data.length (data.getD 1 0 * 8 + 8))⟩ := by
  simp [DecodeFromBytes, base_less data df h2 h]

theorem decode_mismatch (i : IPv6Routing) (data : List Nat) (df : DecodeFeedback)
    (h : data.getD 1 0 * 8 + 8 < data.length) :
    DecodeFromBytes i data df = some ⟨afterCommon i data, df, some .dataLengthMismatch⟩ := by
  have h8 : ¬ data.length < 8 := by omega
  have e0 : data[0]? = some (data.getD 0 0) := getElem?_eq_getD (by omega)
  have e1 : data[1]? = some (data.getD 1 0) := getElem?_eq_getD (by omega)
  have e2 : data[2]? = some (data.getD 2 0) := getElem?_eq_getD (by omega)
  have e3 : data[3]? = some (data.getD 3 0) := getElem?_eq_getD (by omega)
  have hm : (data.length : Int) - 8 ≠ (data.getD 1 0 : Int) * 8 := by omega
  simp only [DecodeFromBytes, base_ok data df (Nat.le_of_lt h), h8, e0, e1, e2, e3, hm,
    Option.bind_eq_bind, Option.some_bind, Option.isSome_none, if_false, if_true, ne_eq,
    not_false_eq_true, Bool.false_eq_true, afterCommon]


theorem decode_unsupported (i : IPv6Routing) (data : List Nat) (df : DecodeFeedback)
    (hlen : data.length = data.getD 1 0 * 8 + 8)
    (h0 : data.getD 2 0 ≠ 0) (h4 : data.getD 2 0 ≠ 4) :
    DecodeFromBytes i data df
      = some ⟨afterCommon i data, df, some (.routingTypeNotSupported (data.getD 2 0))⟩ := by
  have h8 : ¬ data.length < 8 := by omega
  have e0 : data[0]? = some (data.getD 0 0) := getElem?_eq_getD (by omega)
  have e1 : data[1]? = some (data.getD 1 0) := getElem?_eq_getD (by omega)
  have e2 : data[2]? = some (data.getD 2 0) := getElem?_eq_getD (by omega)
  have e3 : data[3]? = some (data.getD 3 0) := getElem?_eq_getD (by omega)
  have hm : ¬ ((data.length : Int) - 8 ≠ (data.getD 1 0 : Int) * 8) := by omega
  simp only [DecodeFromBytes, base_ok data df (Nat.le_of_eq hlen.symm), h8, e0, e1, e2, e3, hm,
    h0, h4, Option.bind_eq_bind, Option.some_bind, Option.isSome_none, if_false,
    Bool.false_eq_true, afterCommon]

theorem decode_type0 (i : IPv6Routing) (data : List Nat) (df : DecodeFeedback)
    (hlen : data.length = data.getD 1 0 * 8 + 8) (h0 : data.getD 2 0 = 0) :
    DecodeFromBytes i data df
      = (decodeLoop data i.LastEntry 0 (List.replicate i.LastEntry [])).bind fun ips =>
          some ⟨{ afterCommon i data with
                  Reserved := (data.drop 4).take 4, SourceRoutingIPs := ips }, df, none⟩ := by
  have h8 : ¬ data.length < 8 := by omega
  have e0 : data[0]? = some (data.getD 0 0) := getElem?_eq_getD (by omega)
  have e1 : data[1]? = some (data.getD 1 0) := getElem?_eq_getD (by omega)
  have e2 : data[2]? = some (data.getD 2 0) := getElem?_eq_getD (by omega)
  have e3 : data[3]? = some (data.getD 3 0) := getElem?_eq_getD (by omega)
  have hm : ¬ ((data.length : Int) - 8 ≠ (data.getD 1 0 : Int) * 8) := by omega
  have s : slice data 4 8 = some ((data.drop 4).take 4) := slice_eq data 4 8 (by omega) (by omega)
  simp only [DecodeFromBytes, base_ok data df (Nat.le_of_eq hlen.symm), h8, e0, e1, e2, e3, hm,
    h0, s, Option.bind_eq_bind, Option.some_bind, Option.isSome_none, if_false, if_true,
    Bool.false_eq_true, afterCommon]

theorem tag_eq (data : List Nat) (h : 8 ≤ data.length) :
    (slice data 6 8).bind beUint16 = some (data.getD 6 0 * 256 + data.getD 7 0) := by
  obtain ⟨b0, b1, b2, b3, b4, b5, b6, b7, rest, rfl⟩ := eq_cons_of_eight_le data h
  simp [slice, beUint16]

theorem decode_type4_short (i : IPv6Routing) (data : List Nat) (df : DecodeFeedback)
    (hlen : data.length = data.getD 1 0 * 8 + 8) (h4 : data.getD 2 0 = 4)
    (hs : data.length - 8 < data.getD 4 0 * 16) :
    DecodeFromBytes i data df = some ⟨afterSRH i data, df, some .dataTooShort⟩ := by
  have h8 : ¬ data.length < 8 := by omega
  have e0 : data[0]? = some (data.getD 0 0) := getElem?_eq_getD (by omega)
  have e1 : data[1]? = some (data.getD 1 0) := getElem?_eq_getD (by omega)
  have e2 : data[2]? = some (data.getD 2 0) := getElem?_eq_getD (by omega)
  have e3 : data[3]? = some (data.getD 3 0) := getElem?_eq_getD (by omega)
  have e4 : data[4]? = some (data.getD 4 0) := getElem?_eq_getD (by omega)
  have e5 : data[5]? = some (data.getD 5 0) := getElem?_eq_getD (by omega)
  have hm : ¬ ((data.length : Int) - 8 ≠ (data.getD 1 0 : Int) * 8) := by omega
  have hs' : (data.length : Int) - 8 < (data.getD 4 0 : Int) * 16 := by omega
  have h40 : (4 : Nat) ≠ 0 := by decide
  simp only [DecodeFromBytes, base_ok data df (Nat.le_of_eq hlen.symm), h8, e0, e1, e2, e3, e4, e5,
    hm, hs', h4, h40, tag_eq data (by omega), Option.bind_eq_bind, Option.some_bind,
    Option.isSome_none, if_false, if_true, Bool.false_eq_true, afterCommon, afterSRH]

theorem decode_type4_ok (i : IPv6Routing) (data : List Nat) (df : DecodeFeedback)
    (hlen : data.length = data.getD 1 0 * 8 + 8) (h4 : data.getD 2 0 = 4)
    (hs : data.getD 4 0 * 16 ≤ data.length - 8) :
    DecodeFromBytes i data df
      = some ⟨{ afterSRH i data with
                SourceRoutingIPs := (List.range (data.getD 4 0)).map
                  (fun j => (data.drop (8 + j * 16)).take 16) }, df, none⟩ := by
  have h8 : ¬ data.length < 8 := by omega
  have e0 : data[0]? = some (data.getD 0 0) := getElem?_eq_getD (by omega)
  have e1 : data[1]? = some (data.getD 1 0) := getElem?_eq_getD (by omega)
  have e2 : data[2]? = some (data.getD 2 0) := getElem?_eq_getD (by omega)
  have e3 : data[3]? = some (data.getD 3 0) := getElem?_eq_getD (by omega)
  have e4 : data[4]? = some (data.getD 4 0) := getElem?_eq_getD (by omega)
  have e5 : data[5]? = some (data.getD 5 0) := getElem?_eq_getD (by omega)
  have hm : ¬ ((data.length : Int) - 8 ≠ (data.getD 1 0 : Int) * 8) := by omega
  have hs' : ¬ ((data.length : Int) - 8 < (data.getD 4 0 : Int) * 16) := by omega
  have h40 : (4 : Nat) ≠ 0 := by decide
  have hl := decodeLoop_eq data (data.getD 4 0) 0 (List.replicate (data.getD 4 0) [])
    (by simp) (by omega)
  simp only [DecodeFromBytes, base_ok data df (Nat.le_of_eq hlen.symm), h8, e0, e1, e2, e3, e4, e5,
    hm, hs', h4, h40, hl, tag_eq data (by omega), Option.bind_eq_bind, Option.some_bind,
    Option.isSome_none, if_false, if_true, Bool.false_eq_true, afterCommon, afterSRH,
    List.take_zero, List.nil_append, List.range_eq_range']

/-- A fresh header always comes back from the decoder: no index or slice of
`DecodeFromBytes` is out of range. -/
theorem decode_fresh_returns (data : List Nat) (df : DecodeFeedback) :
    ∃ r, DecodeFromBytes {} data df = some r := by
  by_cases h2 : data.length < 2
  · exact ⟨_, decode_short _ data df h2⟩
  by_cases hl : data.length < data.getD 1 0 * 8 + 8
  · exact ⟨_, decode_less _ data df (by omega) hl⟩
  by_cases hm : data.getD 1 0 * 8 + 8 < data.length
  · exact ⟨_, decode_mismatch _ data df hm⟩
  have hlen : data.length = data.getD 1 0 * 8 + 8 := by omega
  by_cases h0 : data.getD 2 0 = 0
  · rw [decode_type0 _ data df hlen h0]
    exact ⟨_, by simp [decodeLoop]; rfl⟩
  by_cases h4 : data.getD 2 0 = 4
  · by_cases hs : data.length - 8 < data.getD 4 0 * 16
    · exact ⟨_, decode_type4_short _ data df hlen h4 hs⟩
    · exact ⟨_, decode_type4_ok _ data df hlen h4 (by omega)⟩
  · exact ⟨_, decode_unsupported _ data df hlen h0 h4⟩

/-! ## Lemmas on the serializer and on the two directions together -/

theorem To16_of_length {ip : List Nat} (h : ip.length = 16) : To16 ip = ip := by
  simp [To16, h]

theorem writeSegments_eq :
    ∀ (ips : List (List Nat)) (j : Nat) (pre tail : List Nat),
      (∀ ip ∈ ips, ip.length = 16) → pre.length = 8 + j * 16 →
      tail.length = ips.length * 16 →
      writeSegments (pre ++ tail) j ips = some (pre ++ ips.flatten) := by
  intro ips
  induction ips with
  | nil =>
    intro j pre tail _ _ ht
    have : tail = [] := List.length_eq_zero.mp (by simpa using ht)
    simp [writeSegments, this]
  | cons ip ips ih =>
    intro j pre tail h16 hpre ht
    have hip : ip.length = 16 := h16 ip (List.mem_cons_self _ _)
    have htl : tail.length = ips.length * 16 + 16 := by
      rw [ht, List.length_cons]; omega
    have hc : copyAt (pre ++ tail) (8 + j * 16) (To16 ip)
        = some ((pre ++ ip) ++ tail.drop 16) := by
      have h1 : 8 + j * 16 ≤ (pre ++ tail).length := by
        rw [List.length_append]; omega
      have h2 : (pre ++ tail).length - (8 + j * 16) = tail.length := by
        rw [List.length_append]; omega
      have h3 : min tail.length ip.length = 16 := by omega
      have h4 : List.take tail.length ip = ip := List.take_of_length_le (by omega)
      have h5 : List.drop (8 + j * 16 + 16) (pre ++ tail) = tail.drop 16 := by
        rw [← hpre, List.drop_append]
      have h6 : List.take (8 + j * 16) (pre ++ tail) = pre := by
        rw [← hpre, List.take_left]
      simp only [copyAt, h1, if_true, To16_of_length hip, h2, h3, h4, h5, h6]
    simp only [writeSegments, hc, Option.bind_eq_bind, Option.some_bind]
    rw [ih (j + 1) (pre ++ ip) (tail.drop 16) (fun x hx => h16 x (List.mem_cons_of_mem _ hx))
      (by rw [List.length_append]; omega) (by rw [List.length_drop]; omega)]
    simp

theorem prependBytes_eq (b : SerializeBuffer) (n : Nat) :
    ∃ c0 c1 c2 c3 c4 c5 c6 c7 tail,
      b.PrependBytes (8 + n * 16) = c0 :: c1 :: c2 :: c3 :: c4 :: c5 :: c6 :: c7 :: tail ∧
      tail.length = n * 16 := by
  have hl : (b.PrependBytes (8 + n * 16)).length = 8 + n * 16 := by
    simp [SerializeBuffer.PrependBytes]
  obtain ⟨c0, c1, c2, c3, c4, c5, c6, c7, tail, h⟩ :=
    eq_cons_of_eight_le (b.PrependBytes (8 + n * 16)) (by omega)
  refine ⟨c0, c1, c2, c3, c4, c5, c6, c7, tail, h, ?_⟩
  rw [h] at hl
  simp only [List.length_cons] at hl
  omega

/-- The serializer on a Segment Routing header whose addresses are 16 octets. -/
theorem serialize_type4 (i : IPv6Routing) (b : SerializeBuffer) (opts : SerializeOptions)
    (hrt : i.RoutingType = 4) (h16 : ∀ ip ∈ i.SourceRoutingIPs, ip.length = 16) :
    SerializeTo i b opts
      = some ⟨afterFixLengths i opts,
          [i.NextHeader, (afterFixLengths i opts).HeaderLength, 4, i.SegmentsLeft,
            (afterFixLengths i opts).LastEntry, i.Flags, i.Tag / 256 % 256, i.Tag % 256]
            ++ i.SourceRoutingIPs.flatten ++ b.Bytes, none⟩ := by
  obtain ⟨c0, c1, c2, c3, c4, c5, c6, c7, tail, hreg, htail⟩ :=
    prependBytes_eq b i.SourceRoutingIPs.length
  have h40 : (4 : Nat) ≠ 0 := by decide
  have hw : ∀ x0 x1 x2 x3 x4 x5 x6 x7 : Nat,
      writeSegments (x0 :: x1 :: x2 :: x3 :: x4 :: x5 :: x6 :: x7 :: tail) 0 i.SourceRoutingIPs
        = some (x0 :: x1 :: x2 :: x3 :: x4 :: x5 :: x6 :: x7 :: i.SourceRoutingIPs.flatten) :=
    fun x0 x1 x2 x3 x4 x5 x6 x7 =>
      writeSegments_eq i.SourceRoutingIPs 0 [x0, x1, x2, x3, x4, x5, x6, x7] tail h16 rfl htail
  cases hfl : opts.FixLengths <;>
  · simp only [SerializeTo, hreg, hfl, hrt, h40, put, bePutUint16, List.length_cons, List.set,
      if_true, if_false, Bool.false_eq_true, Option.bind_eq_bind, Option.some_bind,
      afterFixLengths]
    simp [hw]


theorem length_flatten_of_length :
    ∀ (segs : List (List Nat)), (∀ ip ∈ segs, ip.length = 16) →
      segs.flatten.length = segs.length * 16 := by
  intro segs
  induction segs with
  | nil => intro _; rfl
  | cons ip t ih =>
    intro h16
    rw [List.flatten_cons, List.length_append, h16 ip (List.mem_cons_self _ _),
      ih (fun x hx => h16 x (List.mem_cons_of_mem _ hx)), List.length_cons]
    omega

theorem flatten_segment :
    ∀ (segs : List (List Nat)) (j : Nat), (∀ ip ∈ segs, ip.length = 16) → j < segs.length →
      segs[j]? = some ((segs.flatten.drop (j * 16)).take 16) := by
  intro segs
  induction segs with
  | nil => intro j _ hj; simp at hj
  | cons ip t ih =>
    intro j h16 hj
    have hip : ip.length = 16 := h16 ip (List.mem_cons_self _ _)
    cases j with
    | zero =>
      simp only [List.getElem?_cons_zero, Nat.zero_mul, List.drop_zero, List.flatten_cons]
      rw [List.take_left' hip]
    | succ j =>
      have hd : (j + 1) * 16 = ip.length + j * 16 := by omega
      rw [List.getElem?_cons_succ, List.flatten_cons, hd, List.drop_append]
      exact ih j (fun x hx => h16 x (List.mem_cons_of_mem _ hx))
        (by simpa using hj)

/-- What the decoder's loop reads at index `j` from a serialized header: the
address `j` of the list that was serialized. -/
theorem segment_of_serialized (pre : List Nat) (segs : List (List Nat)) (j : Nat)
    (hpre : pre.length = 8) (h16 : ∀ ip ∈ segs, ip.length = 16) (hj : j < segs.length) :
    some (((pre ++ segs.flatten ++ []).drop (8 + j * 16)).take 16) = segs[j]? := by
  rw [List.append_nil, ← hpre, List.drop_append, flatten_segment segs j h16 hj]

theorem copyAt_frame (dst : List Nat) (off : Nat) (src : List Nat) (h : off ≤ dst.length) :
    ∃ out, copyAt dst off src = some out ∧ out.length = dst.length ∧
      out.take off = dst.take off := by
  have hc : copyAt dst off src = some (dst.take off ++ src.take (dst.length - off)
      ++ dst.drop (off + min (dst.length - off) src.length)) := by
    simp only [copyAt, h, if_true]
  refine ⟨_, hc, ?_, ?_⟩
  · simp only [List.length_append, List.length_take, List.length_drop]
    omega
  · rw [List.append_assoc, List.take_append_of_le_length (by simp [h])]
    simp [List.take_take]

theorem writeSegments_frame :
    ∀ (ips : List (List Nat)) (j : Nat) (bytes : List Nat),
      8 + (j + ips.length) * 16 ≤ bytes.length →
      ∃ out, writeSegments bytes j ips = some out ∧ out.length = bytes.length ∧
        out.take (8 + j * 16) = bytes.take (8 + j * 16) := by
  intro ips
  induction ips with
  | nil => intro j bytes _; exact ⟨bytes, rfl, rfl, rfl⟩
  | cons ip ips ih =>
    intro j bytes h
    rw [List.length_cons] at h
    obtain ⟨mid, hmid, hlen, htake⟩ := copyAt_frame bytes (8 + j * 16) (To16 ip) (by omega)
    obtain ⟨out, hout, hlen', htake'⟩ := ih (j + 1) mid (by rw [hlen]; omega)
    refine ⟨out, ?_, by rw [hlen', hlen], ?_⟩
    · simp only [writeSegments, hmid, Option.bind_eq_bind, Option.some_bind, hout]
    · have h1 : out.take (8 + j * 16) = (out.take (8 + (j + 1) * 16)).take (8 + j * 16) := by
        rw [List.take_take]; congr 1; omega
      have h2 : mid.take (8 + j * 16) = (mid.take (8 + (j + 1) * 16)).take (8 + j * 16) := by
        rw [List.take_take]; congr 1; omega
      rw [h1, htake', ← h2, htake]


theorem type0_body (x0 x1 x2 x3 c4 c5 c6 c7 : Nat) (tail reserved : List Nat)
    (ips : List (List Nat)) (htail : tail.length = ips.length * 16) :
    ∃ mid region,
      copyAt (x0 :: x1 :: x2 :: x3 :: c4 :: c5 :: c6 :: c7 :: tail) 4 reserved = some mid ∧
      writeSegments mid 0 ips = some region ∧
      region.length = 8 + ips.length * 16 ∧ region.take 4 = [x0, x1, x2, x3] := by
  obtain ⟨mid, hmid, hmlen, hmtake⟩ :=
    copyAt_frame (x0 :: x1 :: x2 :: x3 :: c4 :: c5 :: c6 :: c7 :: tail) 4 reserved
      (by simp only [List.length_cons]; omega)
  obtain ⟨region, hr, hrlen, hrtake⟩ := writeSegments_frame ips 0 mid
    (by rw [hmlen]; simp only [List.length_cons]; omega)
  refine ⟨mid, region, hmid, hr, ?_, ?_⟩
  · rw [hrlen, hmlen]; simp only [List.length_cons]; omega
  · have h1 : region.take 4 = (region.take (8 + 0 * 16)).take 4 := by
      rw [List.take_take]; rfl
    rw [h1, hrtake, List.take_take]
    exact hmtake

theorem type4_body (x0 x1 x2 x3 x4 x5 x6 x7 : Nat) (tail : List Nat)
    (ips : List (List Nat)) (htail : tail.length = ips.length * 16) :
    ∃ region,
      writeSegments (x0 :: x1 :: x2 :: x3 :: x4 :: x5 :: x6 :: x7 :: tail) 0 ips = some region ∧
      region.length = 8 + ips.length * 16 ∧
      region.take 8 = [x0, x1, x2, x3, x4, x5, x6, x7] := by
  obtain ⟨region, hr, hrlen, hrtake⟩ := writeSegments_frame ips 0
    (x0 :: x1 :: x2 :: x3 :: x4 :: x5 :: x6 :: x7 :: tail)
    (by simp only [List.length_cons]; omega)
  refine ⟨region, hr, ?_, ?_⟩
  · rw [hrlen]; simp only [List.length_cons]; omega
  · exact hrtake

/-- What `SerializeTo` does for any header: it returns, the header is
`afterSerialize`, the buffer is a region of `8 + 16*len(SourceRoutingIPs)`
octets followed by the previous content, octets 0-3 of the region are the
common fields, octets 4-7 the Segment Routing fields for type 4, and for an
unsupported type nothing beyond octet 3 is written. -/
theorem serialize_frame (i : IPv6Routing) (b : SerializeBuffer) (opts : SerializeOptions) :
    ∃ region, SerializeTo i b opts
        = some ⟨afterSerialize i opts, region ++ b.Bytes,
            if i.RoutingType = 0 ∨ i.RoutingType = 4 then none
            else some (.routingTypeNotSupported i.RoutingType)⟩ ∧
      region.length = 8 + i.SourceRoutingIPs.length * 16 ∧
      region.take 4 = [i.NextHeader, (afterSerialize i opts).HeaderLength, i.RoutingType,
        i.SegmentsLeft] ∧
      (i.RoutingType = 4 → region.take 8 = [i.NextHeader, (afterSerialize i opts).HeaderLength,
        4, i.SegmentsLeft, (afterSerialize i opts).LastEntry, i.Flags, i.Tag / 256 % 256,
        i.Tag % 256]) ∧
      (i.RoutingType ≠ 0 → i.RoutingType ≠ 4 →
        region.drop 4 = (b.PrependBytes (8 + i.SourceRoutingIPs.length * 16)).drop 4) := by
  obtain ⟨c0, c1, c2, c3, c4, c5, c6, c7, tail, hreg, htail⟩ :=
    prependBytes_eq b i.SourceRoutingIPs.length
  have h40 : (4 : Nat) ≠ 0 := by decide
  by_cases h0 : i.RoutingType = 0
  · have h04 : i.RoutingType ≠ 4 := by omega
    cases hfl : opts.FixLengths
    · obtain ⟨mid, region, hmid, hr, hlen, htake⟩ := type0_body i.NextHeader i.HeaderLength 0
        i.SegmentsLeft c4 c5 c6 c7 tail i.Reserved i.SourceRoutingIPs htail
      refine ⟨region, ?_, hlen, ?_, fun h => absurd h h04, fun h => absurd h0 h⟩
      · simp only [SerializeTo, hreg, hfl, h0, put, List.length_cons, List.set,
          if_true, if_false, Bool.false_eq_true, Option.bind_eq_bind, Option.some_bind,
          afterSerialize, hmid, hr, true_or, Nat.zero_lt_succ, Nat.succ_lt_succ_iff]
      · simp only [afterSerialize, hfl, Bool.false_eq_true, if_false, h0, htake]
    · obtain ⟨mid, region, hmid, hr, hlen, htake⟩ := type0_body i.NextHeader
        (i.SourceRoutingIPs.length * 2 % 256) 0
        i.SegmentsLeft c4 c5 c6 c7 tail i.Reserved i.SourceRoutingIPs htail
      refine ⟨region, ?_, hlen, ?_, fun h => absurd h h04, fun h => absurd h0 h⟩
      · simp only [SerializeTo, hreg, hfl, h0, h40.symm, put, List.length_cons, List.set,
          if_true, if_false, Option.bind_eq_bind, Option.some_bind,
          afterSerialize, hmid, hr, true_or, Nat.zero_lt_succ, Nat.succ_lt_succ_iff]
      · simp only [afterSerialize, hfl, if_true, if_false, h0, h40.symm, htake]
  by_cases h4 : i.RoutingType = 4
  · cases hfl : opts.FixLengths
    · obtain ⟨region, hr, hlen, htake⟩ := type4_body i.NextHeader i.HeaderLength 4
        i.SegmentsLeft i.LastEntry i.Flags (i.Tag / 256 % 256) (i.Tag % 256) tail
        i.SourceRoutingIPs htail
      refine ⟨region, ?_, hlen, ?_, fun _ => ?_, fun _ h => absurd h4 h⟩
      · simp only [SerializeTo, hreg, hfl, h4, h40, put, bePutUint16, List.length_cons,
          List.set, if_true, if_false, Bool.false_eq_true, Option.bind_eq_bind,
          Option.some_bind, afterSerialize, hr, or_true, Nat.zero_lt_succ,
          Nat.succ_lt_succ_iff, Nat.lt_add_left_iff_pos]
      · have h1 : region.take 4 = (region.take 8).take 4 := by rw [List.take_take]; rfl
        rw [h1, htake]
        simp only [afterSerialize, hfl, Bool.false_eq_true, if_false, h4]; rfl
      · rw [htake]
        simp only [afterSerialize, hfl, Bool.false_eq_true, if_false]
    · obtain ⟨region, hr, hlen, htake⟩ := type4_body i.NextHeader
        (i.SourceRoutingIPs.length * 2 % 256) 4
        i.SegmentsLeft ((i.SourceRoutingIPs.length % 256 + 255) % 256) i.Flags
        (i.Tag / 256 % 256) (i.Tag % 256) tail i.SourceRoutingIPs htail
      refine ⟨region, ?_, hlen, ?_, fun _ => ?_, fun _ h => absurd h4 h⟩
      · simp only [SerializeTo, hreg, hfl, h4, h40, put, bePutUint16, List.length_cons,
          List.set, if_true, if_false, Option.bind_eq_bind,
          Option.some_bind, afterSerialize, hr, or_true, Nat.zero_lt_succ,
          Nat.succ_lt_succ_iff, Nat.lt_add_left_iff_pos]
      · have h1 : region.take 4 = (region.take 8).take 4 := by rw [List.take_take]; rfl
        rw [h1, htake]
        simp only [afterSerialize, hfl, if_true, h4]; rfl
      · rw [htake]
        simp only [afterSerialize, hfl, if_true, h4]
  · have hno : ¬ (i.RoutingType = 0 ∨ i.RoutingType = 4) := by
      intro h; cases h with
      | inl h => exact h0 h
      | inr h => exact h4 h
    cases hfl : opts.FixLengths
    · refine ⟨i.NextHeader :: i.HeaderLength :: i.RoutingType :: i.SegmentsLeft :: c4 :: c5
        :: c6 :: c7 :: tail, ?_, ?_, ?_, fun h => absurd h h4, fun _ _ => ?_⟩
      · simp only [SerializeTo, hreg, hfl, h0, h4, hno, put, List.length_cons, List.set,
          if_true, if_false, Bool.false_eq_true, Option.bind_eq_bind, Option.some_bind,
          afterSerialize, Nat.zero_lt_succ, Nat.succ_lt_succ_iff, or_self]
      · simp only [List.length_cons, htail]; omega
      · simp only [afterSerialize, hfl, Bool.false_eq_true, if_false]; rfl
      · rw [hreg]; rfl
    · refine ⟨i.NextHeader :: (i.SourceRoutingIPs.length * 2 % 256) :: i.RoutingType
        :: i.SegmentsLeft :: c4 :: c5 :: c6 :: c7 :: tail, ?_, ?_, ?_, fun h => absurd h h4,
        fun _ _ => ?_⟩
      · simp only [SerializeTo, hreg, hfl, h0, h4, hno, put, List.length_cons, List.set,
          if_true, if_false, Option.bind_eq_bind, Option.some_bind,
          afterSerialize, Nat.zero_lt_succ, Nat.succ_lt_succ_iff, or_self]
      · simp only [List.length_cons, htail]; omega
      · simp only [afterSerialize, hfl, if_true, h4, if_false]; rfl
      · rw [hreg]; rfl

/-- An octet of a region whose first octets are known, read from the buffer. -/
theorem getD_of_take (region rest front : List Nat) (n k : Nat)
    (h : region.take n = front) (hk : k < front.length) :
    (region ++ rest).getD k 0 = front.getD k 0 := by
  have hlen : front.length = min n region.length := by rw [← h, List.length_take]
  rw [List.getD_eq_getElem?_getD, List.getD_eq_getElem?_getD,
    List.getElem?_append_left (by omega), ← h, List.getElem?_take_of_lt (by omega)]

/-- The two ways `DecodeFromBytes` returns without error: a type-0 header or a
Segment Routing header whose announced entries fit, both of the announced length. -/
theorem decode_success_cases (i : IPv6Routing) (data : List Nat) (df : DecodeFeedback)
    (r : DecodeResult) (h : DecodeFromBytes i data df = some r) (hok : r.err = none) :
    data.length = data.getD 1 0 * 8 + 8 ∧
      ((data.getD 2 0 = 0 ∧ ∃ ips,
          decodeLoop data i.LastEntry 0 (List.replicate i.LastEntry []) = some ips ∧
          r = ⟨{ afterCommon i data with
            Reserved := (data.drop 4).take 4, SourceRoutingIPs := ips }, df, none⟩) ∨
        (data.getD 2 0 = 4 ∧ data.getD 4 0 * 16 ≤ data.length - 8 ∧
          r = ⟨{ afterSRH i data with
            SourceRoutingIPs := (List.range (data.getD 4 0)).map
              (fun j => (data.drop (8 + j * 16)).take 16) }, df, none⟩)) := by
  by_cases h2 : data.length < 2
  · rw [decode_short _ data df h2] at h
    cases h; simp at hok
  by_cases hl : data.length < data.getD 1 0 * 8 + 8
  · rw [decode_less _ data df (by omega) hl] at h
    cases h; simp at hok
  by_cases hm : data.getD 1 0 * 8 + 8 < data.length
  · rw [decode_mismatch _ data df hm] at h
    cases h; simp at hok
  have hlen : data.length = data.getD 1 0 * 8 + 8 := by omega
  refine ⟨hlen, ?_⟩
  by_cases h0 : data.getD 2 0 = 0
  · rw [decode_type0 _ data df hlen h0] at h
    obtain ⟨ips, hips, h⟩ := Option.bind_eq_some.mp h
    cases h
    exact Or.inl ⟨h0, ips, hips, rfl⟩
  by_cases h4 : data.getD 2 0 = 4
  · by_cases hs : data.length - 8 < data.getD 4 0 * 16
    · rw [decode_type4_short _ data df hlen h4 hs] at h
      cases h; simp at hok
    · rw [decode_type4_ok _ data df hlen h4 (by omega)] at h
      cases h
      exact Or.inr ⟨h4, by omega, rfl⟩
  · rw [decode_unsupported _ data df hlen h0 h4] at h
    cases h; simp at hok

/-- The list the decoder builds from a serialized header announcing one entry
less than the addresses: the addresses but the last. -/
theorem decoded_segments_take (pre : List Nat) (segs : List (List Nat)) (n : Nat)
    (hpre : pre.length = 8) (h16 : ∀ ip ∈ segs, ip.length = 16) (hn : n ≤ segs.length) :
    (List.range n).map (fun j => ((pre ++ segs.flatten ++ []).drop (8 + j * 16)).take 16)
      = segs.take n := by
  apply List.ext_getElem?
  intro j
  by_cases hj : j < n
  · rw [List.getElem?_map, List.getElem?_range hj, Option.map_some',
      segment_of_serialized pre segs j hpre h16 (by omega), List.getElem?_take_of_lt hj]
  · rw [List.getElem?_eq_none (by simp; omega), List.getElem?_eq_none (by simp; omega)]

/-- The 16-octet slices the decoder reads, put end to end, are the octets that
follow the 8-octet fixed part. -/
theorem flatten_slices (data : List Nat) :
    ∀ n, ((List.range n).map (fun j => (data.drop (8 + j * 16)).take 16)).flatten
      = (data.drop 8).take (n * 16) := by
  intro n
  induction n with
  | zero => simp
  | succ n ih =>
    rw [List.range_succ, List.map_append, List.flatten_append, ih, Nat.succ_mul,
      List.take_add, List.drop_drop]
    simp

/-- The serializer on a type-0 header without addresses and with 4 reserved octets. -/
theorem serialize_type0_plain (i : IPv6Routing) (b : SerializeBuffer) (opts : SerializeOptions)
    (hrt : i.RoutingType = 0) (hips : i.SourceRoutingIPs = [])
    (r0 r1 r2 r3 : Nat) (hres : i.Reserved = [r0, r1, r2, r3]) (hfix : opts.FixLengths = false) :
    SerializeTo i b opts
      = some ⟨i, [i.NextHeader, i.HeaderLength, 0, i.SegmentsLeft, r0, r1, r2, r3]
          ++ b.Bytes, none⟩ := by
  obtain ⟨c0, c1, c2, c3, c4, c5, c6, c7, tail, hreg, htail⟩ :=
    prependBytes_eq b i.SourceRoutingIPs.length
  rw [hips] at hreg htail
  have ht : tail = [] := List.length_eq_zero.mp (by simpa using htail)
  subst ht
  have hreg' : b.PrependBytes 8 = [c0, c1, c2, c3, c4, c5, c6, c7] := hreg
  simp only [SerializeTo, hips, List.length_nil, Nat.zero_mul, Nat.add_zero, hreg', hfix, hrt,
    hres, put, copyAt, writeSegments, List.length_cons, List.set,
    if_true, if_false, Bool.false_eq_true, Option.bind_eq_bind, Option.some_bind]
  simp

/-! ## The claims -/

/-- C1, as amended: for a Segment Routing header with `N` addresses of 16
octets, `1 ≤ N ≤ 127`, `SerializeTo` with `FixLengths` onto an empty buffer
followed by `DecodeFromBytes` into a fresh header succeeds with
`LastEntry = N - 1`, every entry of the decoded list is the original address
at the same index, and the entries at the indices below `N - 1` are present. -/
theorem roundtrip_fix_lengths (i : IPv6Routing) (b : SerializeBuffer)
    (opts : SerializeOptions) (df : DecodeFeedback)
    (hrt : i.RoutingType = 4) (h16 : ∀ ip ∈ i.SourceRoutingIPs, ip.length = 16)
    (h1 : 1 ≤ i.SourceRoutingIPs.length) (h127 : i.SourceRoutingIPs.length ≤ 127)
    (hfix : opts.FixLengths = true) (hb : b.Bytes = []) :
    ∃ s r, SerializeTo i b opts = some s ∧ s.err = none ∧
      DecodeFromBytes {} s.buf df = some r ∧ r.err = none ∧
      r.hdr.LastEntry = i.SourceRoutingIPs.length - 1 ∧
      (∀ (j : Nat) (ip : List Nat), r.hdr.SourceRoutingIPs[j]? = some ip →
        i.SourceRoutingIPs[j]? = some ip) ∧
      (∀ j, j < i.SourceRoutingIPs.length - 1 →
        r.hdr.SourceRoutingIPs[j]? = i.SourceRoutingIPs[j]?) := by
  have hser := serialize_type4 i b opts hrt h16
  have hHL : (afterFixLengths i opts).HeaderLength = i.SourceRoutingIPs.length * 2 := by
    simp only [afterFixLengths, hfix, if_true]; omega
  have hLE : (afterFixLengths i opts).LastEntry = i.SourceRoutingIPs.length - 1 := by
    simp only [afterFixLengths, hfix, if_true]; omega
  rw [hHL, hLE, hb] at hser
  have hfl := length_flatten_of_length i.SourceRoutingIPs h16
  have hlen : ([i.NextHeader, i.SourceRoutingIPs.length * 2, 4, i.SegmentsLeft,
      i.SourceRoutingIPs.length - 1, i.Flags, i.Tag / 256 % 256, i.Tag % 256]
      ++ i.SourceRoutingIPs.flatten ++ []).length = 8 + i.SourceRoutingIPs.length * 16 := by
    simp only [List.length_append, List.length_cons, List.length_nil, hfl]; omega
  have hL : ([i.NextHeader, i.SourceRoutingIPs.length * 2, 4, i.SegmentsLeft,
        i.SourceRoutingIPs.length - 1, i.Flags, i.Tag / 256 % 256, i.Tag % 256]
        ++ i.SourceRoutingIPs.flatten ++ []).getD 4 0 = i.SourceRoutingIPs.length - 1 := rfl
  have hH : ([i.NextHeader, i.SourceRoutingIPs.length * 2, 4, i.SegmentsLeft,
        i.SourceRoutingIPs.length - 1, i.Flags, i.Tag / 256 % 256, i.Tag % 256]
        ++ i.SourceRoutingIPs.flatten ++ []).getD 1 0 = i.SourceRoutingIPs.length * 2 := rfl
  have hdec := decode_type4_ok {} ([i.NextHeader, i.SourceRoutingIPs.length * 2, 4,
      i.SegmentsLeft, i.SourceRoutingIPs.length - 1, i.Flags, i.Tag / 256 % 256, i.Tag % 256]
      ++ i.SourceRoutingIPs.flatten ++ []) df
    (by rw [hlen, hH]; omega) (by rfl) (by rw [hlen, hL]; omega)
  refine ⟨_, _, hser, rfl, hdec, rfl, hL, ?_⟩
  have hget : ∀ j, j < i.SourceRoutingIPs.length - 1 →
      ((List.range (i.SourceRoutingIPs.length - 1)).map (fun j =>
        (([i.NextHeader, i.SourceRoutingIPs.length * 2, 4, i.SegmentsLeft,
          i.SourceRoutingIPs.length - 1, i.Flags, i.Tag / 256 % 256, i.Tag % 256]
          ++ i.SourceRoutingIPs.flatten ++ []).drop (8 + j * 16)).take 16))[j]?
        = i.SourceRoutingIPs[j]? := by
    intro j hj
    rw [List.getElem?_map, List.getElem?_range hj, Option.map_some']
    exact segment_of_serialized _ _ j rfl h16 (by omega)
  simp only [hL]
  refine ⟨?_, hget⟩
  intro j ip hjip
  by_cases hj : j < i.SourceRoutingIPs.length - 1
  · rw [← hget j hj]; exact hjip
  · rw [List.getElem?_eq_none (by simp; omega)] at hjip
    cases hjip

/-- Witness of C1 as amended: two addresses; the decoded list holds the first. -/
theorem roundtrip_fix_lengths_witness :
    ∃ s r, SerializeTo twoSegments {} { FixLengths := true } = some s ∧ s.err = none ∧
      DecodeFromBytes {} s.buf {} = some r ∧ r.err = none ∧ r.hdr.LastEntry = 1 ∧
      r.hdr.SourceRoutingIPs[0]? = some (List.replicate 16 10) :=
  have ⟨s, r, hs, hse, hr, hre, hle, _, hget⟩ := roundtrip_fix_lengths twoSegments {}
    { FixLengths := true } {} rfl (by decide) (by decide) (by decide) rfl rfl
  ⟨s, r, hs, hse, hr, hre, hle, hget 0 (by decide)⟩

/-- Counterexample to C1 as stated: with one address the round trip succeeds
but the decoded segment list is empty, not of length 1; with 128 addresses
`HeaderLength` wraps to 0 and the decoder rejects the 2056 octets with
"data length mismatch". -/
theorem roundtrip_not_for_every_count :
    ((SerializeTo oneSegment {} { FixLengths := true }).bind fun s =>
        (DecodeFromBytes {} s.buf {}).map fun r => (s.err, r.err, r.hdr.SourceRoutingIPs))
      = some (none, none, []) ∧
    ((SerializeTo manySegments {} { FixLengths := true }).bind fun s =>
        (DecodeFromBytes {} s.buf {}).map fun r => (s.err, r.err))
      = some (none, some .dataLengthMismatch) := by
  constructor
  · decide
  · have h16 : ∀ ip ∈ manySegments.SourceRoutingIPs, ip.length = 16 := by
      intro ip hip
      rw [(List.mem_replicate.mp hip).2]; rfl
    have hN : manySegments.SourceRoutingIPs.length = 128 := List.length_replicate _ _
    have hfl := length_flatten_of_length _ h16
    rw [serialize_type4 manySegments {} _ rfl h16, Option.some_bind, decode_mismatch]
    · rfl
    · simp only [afterFixLengths, if_true, List.cons_append, List.getD_cons_succ,
        List.getD_cons_zero, List.length_cons, List.length_append, hfl, hN]
      decide

/-- C2, as amended: the 40-octet buffer of the scenario, whose `HeaderLength`
octet 2 announces 24 octets, is rejected with "data length mismatch"; with
`HeaderLength` 4, the value that announces 40 octets, it decodes into a fresh
header without error, with `SegmentsLeft`, `Flags` and `Tag` 0, `LastEntry` 1
and `A` as entry 0 of the segment list. -/
theorem decode_two_segment_scenario (A B : List Nat) (df : DecodeFeedback)
    (hA : A.length = 16) (hB : B.length = 16) :
    (∃ r, DecodeFromBytes {} ([6, 2, 4, 0, 1, 0, 0, 0] ++ A ++ B) df = some r ∧
        r.err = some .dataLengthMismatch ∧ r.df = df) ∧
      (∃ r, DecodeFromBytes {} ([6, 4, 4, 0, 1, 0, 0, 0] ++ A ++ B) df = some r ∧
        r.err = none ∧ r.hdr.SegmentsLeft = 0 ∧ r.hdr.Flags = 0 ∧ r.hdr.Tag = 0 ∧
        r.hdr.LastEntry = 1 ∧ r.hdr.SourceRoutingIPs[0]? = some A) := by
  constructor
  · refine ⟨_, decode_mismatch _ _ df ?_, rfl, rfl⟩
    simp [hA, hB]
  · have h := decode_type4_ok {} ([6, 4, 4, 0, 1, 0, 0, 0] ++ A ++ B) df
      (by simp [hA, hB]) (by simp) (by simp [hA, hB])
    refine ⟨_, h, ?_⟩
    simp only [afterSRH, afterCommon, List.cons_append, List.nil_append, List.getD_cons_zero,
      List.getD_cons_succ, List.range_succ, List.range_zero, List.map_cons, List.map_nil,
      List.getElem?_cons_zero, Nat.zero_mul, Nat.add_zero, List.drop_succ_cons, List.drop_zero,
      List.take_left' hA, and_self]

/-- Witness of C2 as amended. -/
theorem decode_two_segment_scenario_witness :
    (∃ r, DecodeFromBytes {} ([6, 2, 4, 0, 1, 0, 0, 0] ++ List.replicate 16 10
          ++ List.replicate 16 20) {} = some r ∧
        r.err = some .dataLengthMismatch ∧ r.df = {}) ∧
      (∃ r, DecodeFromBytes {} ([6, 4, 4, 0, 1, 0, 0, 0] ++ List.replicate 16 10
          ++ List.replicate 16 20) {} = some r ∧
        r.err = none ∧ r.hdr.SegmentsLeft = 0 ∧ r.hdr.Flags = 0 ∧ r.hdr.Tag = 0 ∧
        r.hdr.LastEntry = 1 ∧ r.hdr.SourceRoutingIPs[0]? = some (List.replicate 16 10)) :=
  decode_two_segment_scenario (List.replicate 16 10) (List.replicate 16 20) {}
    (by decide) (by decide)

/-- Counterexample to C2 as stated: with `A` sixteen octets 10 and `B` sixteen
octets 20, decoding `06 02 04 00 01 00 00 00 A B` does not succeed, it returns
"data length mismatch" (40 - 8 is not 2 * 8). -/
theorem two_segment_scenario_rejected :
    (DecodeFromBytes {} ([6, 2, 4, 0, 1, 0, 0, 0] ++ List.replicate 16 10
        ++ List.replicate 16 20) {}).map (fun r => r.err)
      = some (some .dataLengthMismatch) := by
  decide

/-- C3: a buffer whose length is `8*data[1] + 8`, whose routing type is 4 and
whose `16*data[4]` octets of segments fit behind the 8-octet prefix decodes
into a fresh header without error; the fields are octets 0-5, the tag is
octets 6-7 read big-endian, and the segment list has exactly `LastEntry`
entries, entry `j` being the 16 octets from `8+16j` on, in wire order. -/
theorem decode_segment_routing_header (data : List Nat) (df : DecodeFeedback)
    (hlen : data.length = 8 * data.getD 1 0 + 8) (h4 : data.getD 2 0 = 4)
    (hs : 16 * data.getD 4 0 ≤ data.length - 8) :
    ∃ r, DecodeFromBytes {} data df = some r ∧ r.err = none ∧
      r.hdr.NextHeader = data.getD 0 0 ∧ r.hdr.HeaderLength = data.getD 1 0 ∧
      r.hdr.RoutingType = 4 ∧ r.hdr.SegmentsLeft = data.getD 3 0 ∧
      r.hdr.LastEntry = data.getD 4 0 ∧ r.hdr.Flags = data.getD 5 0 ∧
      r.hdr.Tag = 256 * data.getD 6 0 + data.getD 7 0 ∧
      r.hdr.SourceRoutingIPs.length = r.hdr.LastEntry ∧
      ∀ j, j < r.hdr.LastEntry →
        r.hdr.SourceRoutingIPs[j]? = some ((data.drop (8 + 16 * j)).take 16) ∧
        ((data.drop (8 + 16 * j)).take 16).length = 16 := by
  refine ⟨_, decode_type4_ok _ data df (by omega) h4 (by omega), ?_⟩
  simp only [afterSRH, afterCommon, h4, List.length_map, List.length_range, true_and]
  refine ⟨by omega, ?_⟩
  intro j hj
  constructor
  · rw [List.getElem?_map, List.getElem?_range hj, Option.map_some', Nat.mul_comm 16 j]
  · simp only [List.length_take, List.length_drop]
    omega


/-- Witness of C3: a 40-octet buffer with `LastEntry = 2` and two segments. -/
theorem decode_segment_routing_header_witness :
    ∃ r, DecodeFromBytes {} ([6, 4, 4, 1, 2, 7, 1, 2] ++ List.replicate 16 10
        ++ List.replicate 16 20) {} = some r ∧ r.err = none ∧
      r.hdr.NextHeader = 6 ∧ r.hdr.HeaderLength = 4 ∧
      r.hdr.RoutingType = 4 ∧ r.hdr.SegmentsLeft = 1 ∧
      r.hdr.LastEntry = 2 ∧ r.hdr.Flags = 7 ∧ r.hdr.Tag = 258 ∧
      r.hdr.SourceRoutingIPs.length = r.hdr.LastEntry ∧
      ∀ j, j < r.hdr.LastEntry →
        r.hdr.SourceRoutingIPs[j]? = some ((List.drop (8 + 16 * j) ([6, 4, 4, 1, 2, 7, 1, 2]
          ++ List.replicate 16 10 ++ List.replicate 16 20)).take 16) ∧
        ((List.drop (8 + 16 * j) ([6, 4, 4, 1, 2, 7, 1, 2]
          ++ List.replicate 16 10 ++ List.replicate 16 20)).take 16).length = 16 :=
  decode_segment_routing_header ([6, 4, 4, 1, 2, 7, 1, 2] ++ List.replicate 16 10
    ++ List.replicate 16 20) {} (by decide) (by decide) (by decide)

/-- C4: a buffer whose length is `8*data[1] + 8` and whose routing type is 0
decodes into a fresh header without error; octets 0, 1 and 3 give
`NextHeader`, `HeaderLength` and `SegmentsLeft`, `Reserved` is the four octets
4-7, and no Segment Routing field is populated. -/
theorem decode_type0_header (data : List Nat) (df : DecodeFeedback)
    (hlen : data.length = 8 * data.getD 1 0 + 8) (h0 : data.getD 2 0 = 0) :
    ∃ r, DecodeFromBytes {} data df = some r ∧ r.err = none ∧
      r.hdr.NextHeader = data.getD 0 0 ∧ r.hdr.HeaderLength = data.getD 1 0 ∧
      r.hdr.RoutingType = 0 ∧ r.hdr.SegmentsLeft = data.getD 3 0 ∧
      r.hdr.Reserved = [data.getD 4 0, data.getD 5 0, data.getD 6 0, data.getD 7 0] ∧
      r.hdr.LastEntry = 0 ∧ r.hdr.Flags = 0 ∧ r.hdr.Tag = 0 ∧
      r.hdr.SourceRoutingIPs = [] := by
  have hd := decode_type0 {} data df (by omega) h0
  have hr : (data.drop 4).take 4
      = [data.getD 4 0, data.getD 5 0, data.getD 6 0, data.getD 7 0] := by
    obtain ⟨b0, b1, b2, b3, b4, b5, b6, b7, rest, rfl⟩ :=
      eq_cons_of_eight_le data (by omega)
    rfl
  refine ⟨_, hd, ?_⟩
  simp only [decodeLoop, Option.some_bind, afterCommon, h0, hr, List.replicate_zero, and_self]

/-- Witness of C4: a 16-octet type-0 header. -/
theorem decode_type0_header_witness :
    ∃ r, DecodeFromBytes {} [6, 1, 0, 3, 9, 8, 7, 6, 0, 0, 0, 0, 0, 0, 0, 0] {} = some r ∧
      r.err = none ∧ r.hdr.NextHeader = 6 ∧ r.hdr.HeaderLength = 1 ∧
      r.hdr.RoutingType = 0 ∧ r.hdr.SegmentsLeft = 3 ∧ r.hdr.Reserved = [9, 8, 7, 6] ∧
      r.hdr.LastEntry = 0 ∧ r.hdr.Flags = 0 ∧ r.hdr.Tag = 0 ∧
      r.hdr.SourceRoutingIPs = [] :=
  decode_type0_header [6, 1, 0, 3, 9, 8, 7, 6, 0, 0, 0, 0, 0, 0, 0, 0] {}
    (by decide) (by decide)


/-- C5: whenever `DecodeFromBytes` returns without error, the buffer is exactly
`HeaderLength*8 + 8` octets long, the `ActualLength` of the base parser is that
same number, and for routing type 4 the buffer holds at least
`8 + LastEntry*16` octets. -/
theorem decoded_length_invariant (i : IPv6Routing) (data : List Nat) (df : DecodeFeedback)
    (r : DecodeResult) (h : DecodeFromBytes i data df = some r) (hok : r.err = none) :
    data.length = r.hdr.HeaderLength * 8 + 8 ∧
      r.hdr.ActualLength = r.hdr.HeaderLength * 8 + 8 ∧
      r.hdr.ActualLength = data.length ∧
      (r.hdr.RoutingType = 4 → 8 + r.hdr.LastEntry * 16 ≤ data.length) := by
  by_cases h2 : data.length < 2
  · rw [decode_short _ data df h2] at h
    cases h; simp at hok
  by_cases hl : data.length < data.getD 1 0 * 8 + 8
  · rw [decode_less _ data df (by omega) hl] at h
    cases h; simp at hok
  by_cases hm : data.getD 1 0 * 8 + 8 < data.length
  · rw [decode_mismatch _ data df hm] at h
    cases h; simp at hok
  have hlen : data.length = data.getD 1 0 * 8 + 8 := by omega
  by_cases h0 : data.getD 2 0 = 0
  · rw [decode_type0 _ data df hlen h0] at h
    obtain ⟨ips, -, h⟩ := Option.bind_eq_some.mp h
    cases h
    simp only [afterCommon, h0]
    exact ⟨hlen, trivial, hlen.symm, fun h => absurd h (by decide)⟩
  by_cases h4 : data.getD 2 0 = 4
  · by_cases hs : data.length - 8 < data.getD 4 0 * 16
    · rw [decode_type4_short _ data df hlen h4 hs] at h
      cases h; simp at hok
    · rw [decode_type4_ok _ data df hlen h4 (by omega)] at h
      cases h
      simp only [afterSRH, afterCommon]
      exact ⟨hlen, trivial, hlen.symm, fun _ => by omega⟩
  · rw [decode_unsupported _ data df hlen h0 h4] at h
    cases h; simp at hok

/-- Witness of C5: the 24-octet header with one entry announced. -/
theorem decoded_length_invariant_witness :
    DecodeFromBytes {} oneEntryBuffer {} = some oneEntryDecoded ∧
      oneEntryBuffer.length = oneEntryDecoded.hdr.HeaderLength * 8 + 8 ∧
      oneEntryDecoded.hdr.ActualLength = oneEntryBuffer.length ∧
      8 + oneEntryDecoded.hdr.LastEntry * 16 ≤ oneEntryBuffer.length :=
  have h := decoded_length_invariant {} oneEntryBuffer {} oneEntryDecoded (by decide) rfl
  ⟨by decide, h.1, h.2.2.1, h.2.2.2 rfl⟩

/-- C6: a buffer of at least 8 octets whose length is not the `8*data[1] + 8`
its own `HeaderLength` octet announces is rejected with a length-mismatch
error, "less than specified length" when it is too short and "data length
mismatch" when it is too long, whatever the receiver and the other octets;
the truncation signal is not set. -/
theorem malformed_length_rejected (i : IPv6Routing) (data : List Nat) (df : DecodeFeedback)
    (h8 : 8 ≤ data.length) (hne : data.length - 8 ≠ 8 * data.getD 1 0) :
    ∃ r e, DecodeFromBytes i data df = some r ∧ r.err = some e ∧
      e.kind = .LengthMismatch ∧ r.df = df ∧
      (data.length < 8 * data.getD 1 0 + 8 →
        e = .extLessThanSpecified data.length (data.getD 1 0 * 8 + 8)) ∧
      (8 * data.getD 1 0 + 8 < data.length → e = .dataLengthMismatch) := by
  by_cases hl : data.length < data.getD 1 0 * 8 + 8
  · refine ⟨_, _, decode_less i data df (by omega) hl, rfl, rfl, rfl, fun _ => rfl, ?_⟩
    intro h; omega
  · refine ⟨_, _, decode_mismatch i data df (by omega), rfl, rfl, rfl, ?_, fun _ => rfl⟩
    intro h; omega

/-- Witness of C6: the 40-octet two-segment buffer with `HeaderLength` 1. -/
theorem malformed_length_rejected_witness :
    ∃ r e, DecodeFromBytes {} ([6, 1, 4, 0, 1, 0, 0, 0] ++ List.replicate 16 10
        ++ List.replicate 16 20) {} = some r ∧ r.err = some e ∧
      e.kind = .LengthMismatch ∧ r.df = {} ∧ e = .dataLengthMismatch :=
  have ⟨r, e, h, he, hk, hdf, _, hlong⟩ := malformed_length_rejected {}
    ([6, 1, 4, 0, 1, 0, 0, 0] ++ List.replicate 16 10 ++ List.replicate 16 20) {}
    (by decide) (by decide)
  ⟨r, e, h, he, hk, hdf, hlong (by decide)⟩

/-- C7: when the routing type is 4 and `LastEntry*16` exceeds the octets behind
the 8-octet prefix of a buffer of the announced length, the decoder fails with
"data too short", does not set the truncation signal and leaves the segment
list of the receiver as it was. -/
theorem segment_list_longer_than_header (i : IPv6Routing) (data : List Nat)
    (df : DecodeFeedback) (hlen : data.length = 8 * data.getD 1 0 + 8)
    (h4 : data.getD 2 0 = 4) (hs : data.length - 8 < 16 * data.getD 4 0) :
    ∃ r, DecodeFromBytes i data df = some r ∧ r.err = some .dataTooShort ∧
      r.err.map Error.kind = some .TruncatedInput ∧ r.df = df ∧
      r.hdr.SourceRoutingIPs = i.SourceRoutingIPs :=
  ⟨_, decode_type4_short i data df (by omega) h4 (by omega), rfl, rfl, rfl, rfl⟩

/-- Witness of C7: a 24-octet header announcing 2 entries (32 octets). -/
theorem segment_list_longer_than_header_witness :
    ∃ r, DecodeFromBytes {} ([6, 2, 4, 0, 2, 0, 0, 0] ++ List.replicate 16 10) {} = some r ∧
      r.err = some .dataTooShort ∧ r.err.map Error.kind = some .TruncatedInput ∧
      r.df = {} ∧ r.hdr.SourceRoutingIPs = [] :=
  segment_list_longer_than_header {} ([6, 2, 4, 0, 2, 0, 0, 0] ++ List.replicate 16 10) {}
    (by decide) (by decide) (by decide)

/-- C8: on a buffer of the announced length whose routing type is neither 0
nor 4 the decoder fails with "RoutingType %d not supported" for that type;
`Reserved`, `LastEntry`, `Flags`, `Tag` and the segment list of the receiver
are what they were before the call, and `NextHeader`, `HeaderLength`,
`RoutingType`, `SegmentsLeft` hold octets 0-3. -/
theorem decode_unsupported_routing_type (i : IPv6Routing) (data : List Nat)
    (df : DecodeFeedback) (hlen : data.length = 8 * data.getD 1 0 + 8)
    (h0 : data.getD 2 0 ≠ 0) (h4 : data.getD 2 0 ≠ 4) :
    ∃ r, DecodeFromBytes i data df = some r ∧
      r.err = some (.routingTypeNotSupported (data.getD 2 0)) ∧
      r.err.map Error.kind = some .UnsupportedRoutingType ∧
      r.hdr.Reserved = i.Reserved ∧ r.hdr.LastEntry = i.LastEntry ∧
      r.hdr.Flags = i.Flags ∧ r.hdr.Tag = i.Tag ∧
      r.hdr.SourceRoutingIPs = i.SourceRoutingIPs ∧
      r.hdr.NextHeader = data.getD 0 0 ∧ r.hdr.HeaderLength = data.getD 1 0 ∧
      r.hdr.RoutingType = data.getD 2 0 ∧ r.hdr.SegmentsLeft = data.getD 3 0 :=
  ⟨_, decode_unsupported i data df (by omega) h0 h4, rfl, rfl, rfl, rfl, rfl, rfl, rfl,
    rfl, rfl, rfl, rfl⟩

/-- Witness of C8: routing type 2 in a well-formed 8-octet header, decoded into
a receiver whose type-specific fields are already set. -/
theorem decode_unsupported_routing_type_witness :
    ∃ r, DecodeFromBytes usedHeader [6, 0, 2, 3, 0, 0, 0, 0] {} = some r ∧
      r.err = some (.routingTypeNotSupported 2) ∧
      r.err.map Error.kind = some .UnsupportedRoutingType ∧
      r.hdr.Reserved = [1, 2, 3, 4] ∧ r.hdr.LastEntry = 5 ∧
      r.hdr.Flags = 6 ∧ r.hdr.Tag = 7 ∧ r.hdr.SourceRoutingIPs = [[8]] ∧
      r.hdr.NextHeader = 6 ∧ r.hdr.HeaderLength = 0 ∧
      r.hdr.RoutingType = 2 ∧ r.hdr.SegmentsLeft = 3 :=
  decode_unsupported_routing_type usedHeader [6, 0, 2, 3, 0, 0, 0, 0] {}
    (by decide) (by decide) (by decide)


/-- C9: `SetTruncated` is called exactly when the buffer has fewer than 2
octets. A buffer of length 0 or 1 fails with the "less than 2" error, of kind
`TruncatedInput`, after one call of the hook; on a buffer of 2 octets or more
the hook is left untouched whatever the call returns; and with a fresh
receiver the call always returns. -/
theorem truncation_signal_iff_shorter_than_two (i : IPv6Routing) (data : List Nat)
    (df : DecodeFeedback) :
    (data.length < 2 → ∃ r, DecodeFromBytes i data df = some r ∧
        r.err = some (.extLessThan2 data.length) ∧
        r.err.map Error.kind = some .TruncatedInput ∧ r.df = df.SetTruncated) ∧
      (∀ r, DecodeFromBytes i data df = some r →
        (r.df = df.SetTruncated ↔ data.length < 2) ∧ (r.df = df ↔ 2 ≤ data.length)) ∧
      (∃ r, DecodeFromBytes {} data df = some r) := by
  have hne : df.SetTruncated ≠ df := by
    intro h
    have := congrArg DecodeFeedback.SetTruncatedCalls h
    simp [DecodeFeedback.SetTruncated] at this
  refine ⟨fun h2 => ⟨_, decode_short i data df h2, rfl, rfl, rfl⟩, ?_,
    decode_fresh_returns data df⟩
  intro r h
  suffices hdf : r.df = if data.length < 2 then df.SetTruncated else df by
    by_cases h2 : data.length < 2
    · rw [if_pos h2] at hdf
      exact ⟨⟨fun _ => h2, fun _ => hdf⟩,
        ⟨fun h => absurd (hdf.symm.trans h) hne, fun h => absurd h2 (by omega)⟩⟩
    · rw [if_neg h2] at hdf
      exact ⟨⟨fun h => absurd (h.symm.trans hdf) hne, fun h => absurd h h2⟩,
        ⟨fun _ => by omega, fun _ => hdf⟩⟩
  by_cases h2 : data.length < 2
  · rw [decode_short _ data df h2] at h
    cases h; simp [h2]
  rw [if_neg h2]
  by_cases hl : data.length < data.getD 1 0 * 8 + 8
  · rw [decode_less _ data df (by omega) hl] at h
    cases h; rfl
  by_cases hm : data.getD 1 0 * 8 + 8 < data.length
  · rw [decode_mismatch _ data df hm] at h
    cases h; rfl
  have hlen : data.length = data.getD 1 0 * 8 + 8 := by omega
  by_cases h0 : data.getD 2 0 = 0
  · rw [decode_type0 _ data df hlen h0] at h
    obtain ⟨ips, -, h⟩ := Option.bind_eq_some.mp h
    cases h; rfl
  by_cases h4 : data.getD 2 0 = 4
  · by_cases hs : data.length - 8 < data.getD 4 0 * 16
    · rw [decode_type4_short _ data df hlen h4 hs] at h
      cases h; rfl
    · rw [decode_type4_ok _ data df hlen h4 (by omega)] at h
      cases h; rfl
  · rw [decode_unsupported _ data df hlen h0 h4] at h
    cases h; rfl

/-- C10, as amended: a buffer of 2 to 7 octets is rejected by the base parser
with "less than specified length", a length-mismatch error and not the
"data too short" of the 8-octet check, and the truncation signal is not set. -/
theorem two_to_seven_octets_rejected (i : IPv6Routing) (data : List Nat)
    (df : DecodeFeedback) (h2 : 2 ≤ data.length) (h7 : data.length ≤ 7) :
    ∃ r, DecodeFromBytes i data df = some r ∧
      r.err = some (.extLessThanSpecified data.length (data.getD 1 0 * 8 + 8)) ∧
      r.err.map Error.kind = some .LengthMismatch ∧
      r.err ≠ some .dataTooShort ∧ r.df = df :=
  ⟨_, decode_less i data df h2 (by omega), rfl, rfl, by simp, rfl⟩

/-- Witness of C10 as amended: seven octets. -/
theorem two_to_seven_octets_rejected_witness :
    ∃ r, DecodeFromBytes {} [6, 0, 4, 0, 0, 0, 0] {} = some r ∧
      r.err = some (.extLessThanSpecified 7 8) ∧
      r.err.map Error.kind = some .LengthMismatch ∧
      r.err ≠ some .dataTooShort ∧ r.df = {} :=
  two_to_seven_octets_rejected {} [6, 0, 4, 0, 0, 0, 0] {} (by decide) (by decide)

/-- Counterexample to C10 as stated: the seven octets `06 00 04 00 00 00 00`
fail with "Length 7 less than specified length 8", whose kind is
`LengthMismatch` and not `TruncatedInput`. -/
theorem seven_octets_not_truncated_input :
    (DecodeFromBytes {} [6, 0, 4, 0, 0, 0, 0] {}).map (fun r => r.err)
        = some (some (.extLessThanSpecified 7 8)) ∧
      Error.kind (.extLessThanSpecified 7 8) = .LengthMismatch ∧
      Error.kind (.extLessThanSpecified 7 8) ≠ .TruncatedInput := by
  decide

/-- C11: for every header, every option setting and every earlier content of
the buffer, `SerializeTo` returns and the buffer is then a new region of
exactly `8 + 16*len(SourceRoutingIPs)` octets followed by the unchanged
earlier content, also when the call fails for an unsupported routing type. -/
theorem serialize_grows_buffer_in_front (i : IPv6Routing) (b : SerializeBuffer)
    (opts : SerializeOptions) :
    ∃ s region, SerializeTo i b opts = some s ∧ s.buf = region ++ b.Bytes ∧
      region.length = 8 + 16 * i.SourceRoutingIPs.length ∧
      s.buf.length = b.Bytes.length + (8 + 16 * i.SourceRoutingIPs.length) ∧
      s.buf.drop (8 + 16 * i.SourceRoutingIPs.length) = b.Bytes := by
  obtain ⟨region, hs, hlen, -, -, -⟩ := serialize_frame i b opts
  have hlen' : region.length = 8 + 16 * i.SourceRoutingIPs.length := by omega
  refine ⟨_, region, hs, rfl, hlen', ?_, ?_⟩
  · simp only [List.length_append, hlen']; omega
  · simp only [← hlen', List.drop_left]


/-- C12, as amended: with `FixLengths`, `SerializeTo` sets `HeaderLength`, and
octet 1 of the output, to `(segmentCount*2) mod 256` whatever the routing
type, which is `segmentCount*2` up to 127 segments; for routing type 4 it sets
`LastEntry`, and octet 4 of the output, to `(segmentCount - 1) mod 256`, which
is `segmentCount - 1` from 1 to 256 segments and 255 without segments. -/
theorem fix_lengths_modulo_256 (i : IPv6Routing) (b : SerializeBuffer)
    (opts : SerializeOptions) (hfix : opts.FixLengths = true) :
    ∃ s, SerializeTo i b opts = some s ∧
      s.hdr.HeaderLength = (i.SourceRoutingIPs.length * 2) % 256 ∧
      s.buf.getD 1 0 = (i.SourceRoutingIPs.length * 2) % 256 ∧
      (i.SourceRoutingIPs.length ≤ 127 →
        s.hdr.HeaderLength = i.SourceRoutingIPs.length * 2) ∧
      (i.RoutingType = 4 →
        s.hdr.LastEntry = (i.SourceRoutingIPs.length + 255) % 256 ∧
        s.buf.getD 4 0 = (i.SourceRoutingIPs.length + 255) % 256 ∧
        (1 ≤ i.SourceRoutingIPs.length → i.SourceRoutingIPs.length ≤ 256 →
          s.hdr.LastEntry = i.SourceRoutingIPs.length - 1) ∧
        (i.SourceRoutingIPs.length = 0 → s.hdr.LastEntry = 255)) := by
  obtain ⟨region, hs, -, h4, h8, -⟩ := serialize_frame i b opts
  have hHL : (afterSerialize i opts).HeaderLength = (i.SourceRoutingIPs.length * 2) % 256 := by
    simp only [afterSerialize, hfix, if_true]
    split <;> rfl
  refine ⟨_, hs, hHL, ?_, fun h => by rw [hHL]; omega, fun hrt => ?_⟩
  · rw [getD_of_take region b.Bytes _ 4 1 h4 (by simp)]
    exact hHL
  · have hLE : (afterSerialize i opts).LastEntry
        = (i.SourceRoutingIPs.length + 255) % 256 := by
      simp only [afterSerialize, hfix, if_true, hrt]
      omega
    refine ⟨hLE, ?_, fun h1 h2 => by rw [hLE]; omega, fun h => by rw [hLE]; omega⟩
    rw [getD_of_take region b.Bytes _ 8 4 (h8 hrt) (by simp)]
    exact hLE

/-- Witness of C12 as amended: two addresses, `HeaderLength` 4 and `LastEntry` 1. -/
theorem fix_lengths_modulo_256_witness :
    ∃ s, SerializeTo twoSegments usedBuffer { FixLengths := true } = some s ∧
      s.hdr.HeaderLength = 4 ∧ s.buf.getD 1 0 = 4 ∧
      s.hdr.LastEntry = 1 ∧ s.buf.getD 4 0 = 1 :=
  have ⟨s, hs, hh, ho, _, h4⟩ := fix_lengths_modulo_256 twoSegments usedBuffer
    { FixLengths := true } rfl
  ⟨s, hs, hh, ho, (h4 rfl).1, (h4 rfl).2.1⟩

/-- Counterexample to C12 as stated: with 128 addresses `HeaderLength` and
octet 1 are 0, not `128*2`; without addresses `LastEntry` and octet 4 of a
type-4 header are 255, not `0 - 1`. -/
theorem fix_lengths_not_twice_the_count :
    (∃ s, SerializeTo manySegments {} { FixLengths := true } = some s ∧
      s.hdr.HeaderLength = 0 ∧ s.buf.getD 1 0 = 0 ∧
      manySegments.SourceRoutingIPs.length * 2 = 256) ∧
    (SerializeTo noSegments {} { FixLengths := true }).map
      (fun s => (s.hdr.LastEntry, s.buf.getD 4 0)) = some (255, 255) := by
  constructor
  · obtain ⟨region, hs, -, h4, -, -⟩ := serialize_frame manySegments {} { FixLengths := true }
    have hN : manySegments.SourceRoutingIPs.length = 128 := List.length_replicate _ _
    have hHL : (afterSerialize manySegments { FixLengths := true }).HeaderLength = 0 := by
      simp only [afterSerialize, if_true, hN]
      split <;> rfl
    refine ⟨_, hs, hHL, ?_, by rw [hN]⟩
    rw [getD_of_take region _ _ 4 1 h4 (by simp)]
    exact hHL
  · decide


/-- C13: for a header of routing type 4 whose addresses are 16 octets each (and
whose `Tag` is a 16-bit value), `SerializeTo` without `FixLengths` returns
without error, leaves the header as it is, and the produced region is
`NextHeader, HeaderLength, 4, SegmentsLeft, LastEntry, Flags, Tag >> 8,
Tag & 0xFF` followed by the addresses in list order, address `j` in the 16
octets from `8 + 16j` on. -/
theorem serialize_segment_routing_layout (i : IPv6Routing) (b : SerializeBuffer)
    (opts : SerializeOptions) (hrt : i.RoutingType = 4)
    (h16 : ∀ ip ∈ i.SourceRoutingIPs, ip.length = 16) (hTag : i.Tag < 65536)
    (hfix : opts.FixLengths = false) :
    ∃ s region, SerializeTo i b opts = some s ∧ s.err = none ∧ s.hdr = i ∧
      s.buf = region ++ b.Bytes ∧
      region = [i.NextHeader, i.HeaderLength, 4, i.SegmentsLeft, i.LastEntry, i.Flags,
        i.Tag / 256, i.Tag % 256] ++ i.SourceRoutingIPs.flatten ∧
      region.length = 8 + 16 * i.SourceRoutingIPs.length ∧
      ∀ j, j < i.SourceRoutingIPs.length →
        some ((region.drop (8 + 16 * j)).take 16) = i.SourceRoutingIPs[j]? := by
  have hs := serialize_type4 i b opts hrt h16
  have haf : afterFixLengths i opts = i := by
    simp only [afterFixLengths, hfix, Bool.false_eq_true, if_false]
  have ht : i.Tag / 256 % 256 = i.Tag / 256 := by omega
  rw [haf, ht] at hs
  refine ⟨_, _, hs, rfl, rfl, rfl, rfl, ?_, ?_⟩
  · simp only [List.length_append, List.length_cons, List.length_nil,
      length_flatten_of_length _ h16]
    omega
  · intro j hj
    have := segment_of_serialized [i.NextHeader, i.HeaderLength, 4, i.SegmentsLeft,
      i.LastEntry, i.Flags, i.Tag / 256, i.Tag % 256] i.SourceRoutingIPs j rfl h16 hj
    rw [List.append_nil, Nat.mul_comm j 16] at this
    exact this

/-- Witness of C13: two addresses in front of a buffer in use. -/
theorem serialize_segment_routing_layout_witness :
    ∃ s region, SerializeTo twoSegments usedBuffer {} = some s ∧ s.err = none ∧
      s.hdr = twoSegments ∧ s.buf = region ++ [7, 7] ∧
      region = [6, 0, 4, 1, 0, 3, 1, 2] ++ (List.replicate 16 10 ++ List.replicate 16 20) :=
  have ⟨s, region, hs, he, hh, hb, hr, _, _⟩ := serialize_segment_routing_layout twoSegments
    usedBuffer {} rfl (by decide) (by decide) rfl
  ⟨s, region, hs, he, hh, hb, by rw [hr]; decide⟩

/-- C14: for a header whose routing type is neither 0 nor 4, `SerializeTo`
fails with "RoutingType %d not supported" for that type; octets 0-3 of the
prepended region then hold `NextHeader`, `HeaderLength` (recomputed with
`FixLengths`), `RoutingType` and `SegmentsLeft`, and the octets from 4 on are
as `PrependBytes` returned them: no address has been written. -/
theorem serialize_unsupported_routing_type (i : IPv6Routing) (b : SerializeBuffer)
    (opts : SerializeOptions) (h0 : i.RoutingType ≠ 0) (h4 : i.RoutingType ≠ 4) :
    ∃ s region, SerializeTo i b opts = some s ∧
      s.err = some (.routingTypeNotSupported i.RoutingType) ∧
      s.err.map Error.kind = some .UnsupportedRoutingType ∧
      s.buf = region ++ b.Bytes ∧
      region.length = 8 + 16 * i.SourceRoutingIPs.length ∧
      region.take 4 = [i.NextHeader,
        if opts.FixLengths then (i.SourceRoutingIPs.length * 2) % 256 else i.HeaderLength,
        i.RoutingType, i.SegmentsLeft] ∧
      region.drop 4 = (b.PrependBytes (8 + i.SourceRoutingIPs.length * 16)).drop 4 := by
  obtain ⟨region, hs, hlen, h4', -, hrest⟩ := serialize_frame i b opts
  have hno : ¬ (i.RoutingType = 0 ∨ i.RoutingType = 4) := by
    intro h
    cases h with
    | inl h => exact h0 h
    | inr h => exact h4 h
  rw [if_neg hno] at hs
  have hHL : (afterSerialize i opts).HeaderLength
      = if opts.FixLengths then (i.SourceRoutingIPs.length * 2) % 256 else i.HeaderLength := by
    simp only [afterSerialize, h4, if_false]
    split <;> rfl
  rw [hHL] at h4'
  exact ⟨_, region, hs, rfl, rfl, rfl, by omega, h4', hrest h0 h4⟩

/-- Witness of C14: routing type 2 with `FixLengths`, one address. -/
theorem serialize_unsupported_routing_type_witness :
    ∃ s region, SerializeTo typeTwoHeader usedBuffer { FixLengths := true } = some s ∧
      s.err = some (.routingTypeNotSupported 2) ∧ s.buf = region ++ [7, 7] ∧
      region.take 4 = [6, 2, 2, 1] ∧ region.drop 4 = List.replicate 20 9 :=
  have ⟨s, region, hs, he, _, hb, _, ht, hd⟩ := serialize_unsupported_routing_type
    typeTwoHeader usedBuffer { FixLengths := true } (by decide) (by decide)
  ⟨s, region, hs, he, hb, ht, by rw [hd]; decide⟩

/-- C15: `SerializeTo` without `FixLengths` leaves the header as it was,
whether it fails or not; with `FixLengths` the fields other than
`HeaderLength` and `LastEntry` are as they were, and `LastEntry` too unless
the routing type is 4. -/
theorem serialize_mutates_only_length_fields (i : IPv6Routing) (b : SerializeBuffer)
    (opts : SerializeOptions) :
    ∃ s, SerializeTo i b opts = some s ∧
      (opts.FixLengths = false → s.hdr = i) ∧
      s.hdr.NextHeader = i.NextHeader ∧ s.hdr.RoutingType = i.RoutingType ∧
      s.hdr.SegmentsLeft = i.SegmentsLeft ∧ s.hdr.Reserved = i.Reserved ∧
      s.hdr.Flags = i.Flags ∧ s.hdr.Tag = i.Tag ∧
      s.hdr.SourceRoutingIPs = i.SourceRoutingIPs ∧
      s.hdr.Contents = i.Contents ∧ s.hdr.Payload = i.Payload ∧
      s.hdr.ActualLength = i.ActualLength ∧
      (i.RoutingType ≠ 4 → s.hdr.LastEntry = i.LastEntry) := by
  obtain ⟨region, hs, -, -, -, -⟩ := serialize_frame i b opts
  refine ⟨_, hs, ?_⟩
  simp only [afterSerialize]
  cases opts.FixLengths
  · simp
  · by_cases h4 : i.RoutingType = 4
    · simp [h4]
    · simp [h4]

/-- C16: for a Segment Routing header with `N` addresses of 16 octets,
`1 ≤ N ≤ 127` (and a 16-bit `Tag`), `SerializeTo` with `FixLengths` onto an
empty buffer followed by `DecodeFromBytes` into a fresh header succeeds with
`HeaderLength = 2N`, `LastEntry = N - 1`, the original `NextHeader`,
`SegmentsLeft`, `Flags` and `Tag`, and a segment list that is the first
`N - 1` original addresses in order: the last one is not returned. -/
theorem roundtrip_returns_all_but_last (i : IPv6Routing) (b : SerializeBuffer)
    (opts : SerializeOptions) (df : DecodeFeedback)
    (hrt : i.RoutingType = 4) (h16 : ∀ ip ∈ i.SourceRoutingIPs, ip.length = 16)
    (h1 : 1 ≤ i.SourceRoutingIPs.length) (h127 : i.SourceRoutingIPs.length ≤ 127)
    (hTag : i.Tag < 65536) (hfix : opts.FixLengths = true) (hb : b.Bytes = []) :
    ∃ s r, SerializeTo i b opts = some s ∧ s.err = none ∧
      DecodeFromBytes {} s.buf df = some r ∧ r.err = none ∧
      r.hdr.HeaderLength = 2 * i.SourceRoutingIPs.length ∧
      r.hdr.LastEntry = i.SourceRoutingIPs.length - 1 ∧
      r.hdr.RoutingType = 4 ∧
      r.hdr.NextHeader = i.NextHeader ∧ r.hdr.SegmentsLeft = i.SegmentsLeft ∧
      r.hdr.Flags = i.Flags ∧ r.hdr.Tag = i.Tag ∧
      r.hdr.SourceRoutingIPs = i.SourceRoutingIPs.take (i.SourceRoutingIPs.length - 1) ∧
      r.hdr.SourceRoutingIPs.length = i.SourceRoutingIPs.length - 1 := by
  have hser := serialize_type4 i b opts hrt h16
  have hHL : (afterFixLengths i opts).HeaderLength = i.SourceRoutingIPs.length * 2 := by
    simp only [afterFixLengths, hfix, if_true]; omega
  have hLE : (afterFixLengths i opts).LastEntry = i.SourceRoutingIPs.length - 1 := by
    simp only [afterFixLengths, hfix, if_true]; omega
  rw [hHL, hLE, hb] at hser
  have hfl := length_flatten_of_length i.SourceRoutingIPs h16
  have hlen : ([i.NextHeader, i.SourceRoutingIPs.length * 2, 4, i.SegmentsLeft,
      i.SourceRoutingIPs.length - 1, i.Flags, i.Tag / 256 % 256, i.Tag % 256]
      ++ i.SourceRoutingIPs.flatten ++ []).length = 8 + i.SourceRoutingIPs.length * 16 := by
    simp only [List.length_append, List.length_cons, List.length_nil, hfl]; omega
  have hL : ([i.NextHeader, i.SourceRoutingIPs.length * 2, 4, i.SegmentsLeft,
        i.SourceRoutingIPs.length - 1, i.Flags, i.Tag / 256 % 256, i.Tag % 256]
        ++ i.SourceRoutingIPs.flatten ++ []).getD 4 0 = i.SourceRoutingIPs.length - 1 := rfl
  have hH : ([i.NextHeader, i.SourceRoutingIPs.length * 2, 4, i.SegmentsLeft,
        i.SourceRoutingIPs.length - 1, i.Flags, i.Tag / 256 % 256, i.Tag % 256]
        ++ i.SourceRoutingIPs.flatten ++ []).getD 1 0 = i.SourceRoutingIPs.length * 2 := rfl
  have hdec := decode_type4_ok {} ([i.NextHeader, i.SourceRoutingIPs.length * 2, 4,
      i.SegmentsLeft, i.SourceRoutingIPs.length - 1, i.Flags, i.Tag / 256 % 256, i.Tag % 256]
      ++ i.SourceRoutingIPs.flatten ++ []) df
    (by rw [hlen, hH]; omega) (by rfl) (by rw [hlen, hL]; omega)
  rw [hL, decoded_segments_take [i.NextHeader, i.SourceRoutingIPs.length * 2, 4,
    i.SegmentsLeft, i.SourceRoutingIPs.length - 1, i.Flags, i.Tag / 256 % 256, i.Tag % 256]
    i.SourceRoutingIPs (i.SourceRoutingIPs.length - 1) (by rfl) h16 (by omega)] at hdec
  refine ⟨_, _, hser, rfl, hdec, rfl, ?_, rfl, rfl, rfl, rfl, rfl, ?_, rfl, ?_⟩
  · show i.SourceRoutingIPs.length * 2 = 2 * i.SourceRoutingIPs.length
    omega
  · show i.Tag / 256 % 256 * 256 + i.Tag % 256 = i.Tag
    omega
  · simp only [List.length_take]; omega

/-- Witness of C16: of two addresses the first comes back. -/
theorem roundtrip_returns_all_but_last_witness :
    ∃ s r, SerializeTo twoSegments {} { FixLengths := true } = some s ∧ s.err = none ∧
      DecodeFromBytes {} s.buf {} = some r ∧ r.err = none ∧
      r.hdr.HeaderLength = 4 ∧ r.hdr.LastEntry = 1 ∧ r.hdr.Tag = 258 ∧
      r.hdr.SourceRoutingIPs = [List.replicate 16 10] :=
  have ⟨s, r, hs, hse, hr, hre, hhl, hle, _, _, _, _, htag, hips, _⟩ :=
    roundtrip_returns_all_but_last twoSegments {} { FixLengths := true } {} rfl
      (by decide) (by decide) (by decide) (by decide) rfl rfl
  ⟨s, r, hs, hse, hr, hre, hhl, hle, htag, hips⟩

/-- C18: whenever `DecodeFromBytes` returns without error, `Contents` is the
whole input and `Payload` is empty, so `decodeIPv6Routing` adds the layer and
passes an empty payload on to the decoder of `NextHeader`; and a buffer longer
than the `HeaderLength*8 + 8` octets its header announces is rejected with
"data length mismatch". -/
theorem nothing_left_for_next_layer (i : IPv6Routing) (data : List Nat)
    (df : DecodeFeedback) (p : PacketBuilder) :
    (∀ r, DecodeFromBytes i data df = some r → r.err = none →
        r.hdr.Contents = data ∧ r.hdr.Payload = []) ∧
      (∀ r, DecodeFromBytes {} data p.df = some r → r.err = none →
        ∃ q, decodeIPv6Routing data p = some (q, none) ∧ q.df = r.df ∧
          q.layers = p.layers ++ [r.hdr] ∧
          q.handed = p.handed ++ [(r.hdr.NextHeader, [])]) ∧
      (data.getD 1 0 * 8 + 8 < data.length →
        ∃ r, DecodeFromBytes i data df = some r ∧ r.err = some .dataLengthMismatch ∧
          r.err.map Error.kind = some .LengthMismatch) := by
  have key : ∀ (i : IPv6Routing) (df : DecodeFeedback) (r : DecodeResult),
      DecodeFromBytes i data df = some r → r.err = none →
        r.hdr.Contents = data ∧ r.hdr.Payload = [] := by
    intro i df r h hok
    obtain ⟨hlen, hc⟩ := decode_success_cases i data df r h hok
    have h1 : data.take (data.getD 1 0 * 8 + 8) = data := List.take_of_length_le (by omega)
    have h2 : data.drop (data.getD 1 0 * 8 + 8) = [] := List.drop_of_length_le (by omega)
    rcases hc with ⟨-, ips, -, rfl⟩ | ⟨-, -, rfl⟩
    · exact ⟨h1, h2⟩
    · exact ⟨h1, h2⟩
  refine ⟨key i df, ?_, fun hm => ⟨_, decode_mismatch i data df hm, rfl, rfl⟩⟩
  intro r h hok
  have hp := (key {} p.df r h hok).2
  simp only [decodeIPv6Routing, h, hok, Option.bind_eq_bind, Option.some_bind,
    PacketBuilder.AddLayer, PacketBuilder.NextDecoder, hp, if_true]
  exact ⟨_, rfl, rfl, rfl, rfl⟩

/-- C19: for every buffer, also the empty one, neither
`gopacketDecodeIPv6ExtensionBase` nor `DecodeFromBytes` with a fresh receiver
evaluates an index or a slice out of range: both return, with or without an
error; and when the decoder succeeds every 16-octet slice it read lies within
the buffer. -/
theorem decode_never_faults (data : List Nat) (df : DecodeFeedback) :
    (∃ r, gopacketDecodeIPv6ExtensionBase data df = some r) ∧
      (∃ r, DecodeFromBytes {} data df = some r ∧
        (r.err = none → r.hdr.ActualLength ≤ data.length ∧ 8 ≤ data.length ∧
          ∀ j, j < r.hdr.LastEntry → 8 + 16 * j + 16 ≤ data.length)) := by
  constructor
  · by_cases h2 : data.length < 2
    · exact ⟨_, base_short data df h2⟩
    by_cases hl : data.length < data.getD 1 0 * 8 + 8
    · exact ⟨_, base_less data df (by omega) hl⟩
    · exact ⟨_, base_ok data df (by omega)⟩
  · obtain ⟨r, h⟩ := decode_fresh_returns data df
    refine ⟨r, h, fun hok => ?_⟩
    obtain ⟨hlen, hc⟩ := decode_success_cases {} data df r h hok
    rcases hc with ⟨-, ips, -, rfl⟩ | ⟨-, hfit, rfl⟩
    · refine ⟨?_, by omega, ?_⟩
      · show data.getD 1 0 * 8 + 8 ≤ data.length
        omega
      · intro j hj
        exact absurd hj (Nat.not_lt_zero j)
    · refine ⟨?_, by omega, ?_⟩
      · show data.getD 1 0 * 8 + 8 ≤ data.length
        omega
      · intro j hj
        have hj' : j < data.getD 4 0 := hj
        omega

/-- C17: when `DecodeFromBytes` decodes a buffer of octets into a fresh header
without error, `SerializeTo` of that header without `FixLengths` onto an empty
buffer returns without error and produces the first `8 + 16*LastEntry` octets
of the input (`LastEntry` is 0 for routing type 0); the output is the whole
input exactly when `HeaderLength = 2*LastEntry`. -/
theorem decode_then_serialize (data : List Nat) (df : DecodeFeedback) (r : DecodeResult)
    (b : SerializeBuffer) (opts : SerializeOptions)
    (hbytes : ∀ x ∈ data, x < 256) (h : DecodeFromBytes {} data df = some r)
    (hok : r.err = none) (hfix : opts.FixLengths = false) (hb : b.Bytes = []) :
    ∃ s, SerializeTo r.hdr b opts = some s ∧ s.err = none ∧
      s.buf = data.take (8 + 16 * r.hdr.LastEntry) ∧
      (r.hdr.RoutingType = 0 → r.hdr.LastEntry = 0) ∧
      (s.buf = data ↔ r.hdr.HeaderLength = 2 * r.hdr.LastEntry) := by
  obtain ⟨hlen, hc⟩ := decode_success_cases {} data df r h hok
  obtain ⟨d0, d1, d2, d3, d4, d5, d6, d7, rest, rfl⟩ := eq_cons_of_eight_le data (by omega)
  simp only [List.getD_cons_zero, List.getD_cons_succ, List.length_cons] at hlen hc
  have hiff : ∀ k, 8 + 16 * k ≤ rest.length + 8 →
      ((d0 :: d1 :: d2 :: d3 :: d4 :: d5 :: d6 :: d7 :: rest).take (8 + 16 * k)
          = d0 :: d1 :: d2 :: d3 :: d4 :: d5 :: d6 :: d7 :: rest ↔ d1 = 2 * k) := by
    intro k hk
    rw [List.take_eq_self_iff]
    simp only [List.length_cons]
    omega
  rcases hc with ⟨h0, ips, hips, rfl⟩ | ⟨h4, hfit, hr⟩
  · have hnil : ips = [] := by
      have : decodeLoop (d0 :: d1 :: d2 :: d3 :: d4 :: d5 :: d6 :: d7 :: rest) 0 0 []
          = some ips := hips
      simpa [decodeLoop] using this.symm
    subst hnil
    subst h0
    have hs := serialize_type0_plain
      { afterCommon {} (d0 :: d1 :: 0 :: d3 :: d4 :: d5 :: d6 :: d7 :: rest) with
        Reserved := [d4, d5, d6, d7], SourceRoutingIPs := [] } b opts rfl rfl d4 d5 d6 d7 rfl hfix
    rw [hb] at hs
    refine ⟨_, hs, rfl, ?_, fun _ => rfl, ?_⟩
    · rfl
    · exact hiff 0 (by omega)
  · subst h4
    have hd6 : d6 < 256 := hbytes d6 (by simp)
    have hd7 : d7 < 256 := hbytes d7 (by simp)
    have hNH : r.hdr.NextHeader = d0 := by rw [hr]; rfl
    have hHL : r.hdr.HeaderLength = d1 := by rw [hr]; rfl
    have hRT : r.hdr.RoutingType = 4 := by rw [hr]; rfl
    have hSL : r.hdr.SegmentsLeft = d3 := by rw [hr]; rfl
    have hLE : r.hdr.LastEntry = d4 := by rw [hr]; rfl
    have hFL : r.hdr.Flags = d5 := by rw [hr]; rfl
    have hTG : r.hdr.Tag = d6 * 256 + d7 := by rw [hr]; rfl
    have hseg : r.hdr.SourceRoutingIPs = (List.range d4).map (fun j =>
        ((d0 :: d1 :: 4 :: d3 :: d4 :: d5 :: d6 :: d7 :: rest).drop (8 + j * 16)).take 16) := by
      rw [hr]
    have h16 : ∀ ip ∈ r.hdr.SourceRoutingIPs, ip.length = 16 := by
      intro ip hip
      rw [hseg] at hip
      obtain ⟨j, hj, rfl⟩ := List.mem_map.mp hip
      have hj' : j < d4 := List.mem_range.mp hj
      simp only [List.length_take, List.length_drop, List.length_cons]
      omega
    have hs := serialize_type4 r.hdr b opts hRT h16
    have haf : afterFixLengths r.hdr opts = r.hdr := by
      simp only [afterFixLengths, hfix, Bool.false_eq_true, if_false]
    have ht1 : (d6 * 256 + d7) / 256 % 256 = d6 := by omega
    have ht2 : (d6 * 256 + d7) % 256 = d7 := by omega
    rw [haf, hb, hseg, flatten_slices, hNH, hHL, hSL, hLE, hFL, hTG, ht1, ht2] at hs
    have hout : [d0, d1, 4, d3, d4, d5, d6, d7]
        ++ List.take (d4 * 16) (List.drop 8 (d0 :: d1 :: 4 :: d3 :: d4 :: d5 :: d6 :: d7 :: rest))
        ++ [] = (d0 :: d1 :: 4 :: d3 :: d4 :: d5 :: d6 :: d7 :: rest).take (8 + 16 * d4) := by
      rw [List.append_nil, Nat.mul_comm 16 d4, List.take_add]
      rfl
    rw [hout] at hs
    refine ⟨_, hs, rfl, ?_, ?_, ?_⟩
    · rw [hLE]
    · intro h; rw [hRT] at h; exact absurd h (by decide)
    · rw [hHL, hLE]
      exact hiff d4 (by omega)


/-- Witness of C17: the 24-octet header with one entry comes back whole. -/
theorem decode_then_serialize_witness :
    ∃ s, SerializeTo oneEntryDecoded.hdr {} {} = some s ∧ s.err = none ∧
      s.buf = oneEntryBuffer :=
  have ⟨s, hs, he, hb, _, hiff⟩ := decode_then_serialize oneEntryBuffer {} oneEntryDecoded
    {} {} (by decide) (by decide) rfl rfl rfl
  ⟨s, hs, he, hiff.mpr (by decide)⟩

/-- C20: for a header of routing type 4 with `N` addresses, of any length,
`SerializeTo` with `FixLengths` onto an empty buffer writes `HeaderLength`
`(2N) mod 256` and `LastEntry` `(N-1) mod 256` (255 for `N = 0`) and produces
`8 + 16N` octets; `DecodeFromBytes` of these into a fresh header succeeds
exactly when `1 ≤ N ≤ 127`, fails with "data too short" for `N = 0` and with
"data length mismatch" for `N ≥ 128`. -/
theorem fix_lengths_wrap_around (i : IPv6Routing) (b : SerializeBuffer)
    (opts : SerializeOptions) (df : DecodeFeedback)
    (hrt : i.RoutingType = 4) (hfix : opts.FixLengths = true) (hb : b.Bytes = []) :
    ∃ s r, SerializeTo i b opts = some s ∧ s.err = none ∧
      s.hdr.HeaderLength = (2 * i.SourceRoutingIPs.length) % 256 ∧
      s.buf.getD 1 0 = (2 * i.SourceRoutingIPs.length) % 256 ∧
      s.hdr.LastEntry = (i.SourceRoutingIPs.length + 255) % 256 ∧
      s.buf.getD 4 0 = (i.SourceRoutingIPs.length + 255) % 256 ∧
      (1 ≤ i.SourceRoutingIPs.length →
        s.hdr.LastEntry = (i.SourceRoutingIPs.length - 1) % 256) ∧
      (i.SourceRoutingIPs.length = 0 → s.hdr.LastEntry = 255) ∧
      s.buf.length = 8 + 16 * i.SourceRoutingIPs.length ∧
      DecodeFromBytes {} s.buf df = some r ∧
      (r.err = none ↔ 1 ≤ i.SourceRoutingIPs.length ∧ i.SourceRoutingIPs.length ≤ 127) ∧
      (i.SourceRoutingIPs.length = 0 → r.err = some .dataTooShort) ∧
      (128 ≤ i.SourceRoutingIPs.length → r.err = some .dataLengthMismatch) := by
  obtain ⟨region, hs, hlen, -, h8, -⟩ := serialize_frame i b opts
  have h8 := h8 hrt
  have hno : i.RoutingType = 0 ∨ i.RoutingType = 4 := Or.inr hrt
  rw [if_pos hno, hb] at hs
  have hHL : (afterSerialize i opts).HeaderLength = (2 * i.SourceRoutingIPs.length) % 256 := by
    simp only [afterSerialize, hfix, if_true, hrt]
    omega
  have hLE : (afterSerialize i opts).LastEntry = (i.SourceRoutingIPs.length + 255) % 256 := by
    simp only [afterSerialize, hfix, if_true, hrt]
    omega
  rw [hHL, hLE] at h8
  have g1 : (region ++ []).getD 1 0 = (2 * i.SourceRoutingIPs.length) % 256 := by
    rw [getD_of_take region [] _ 8 1 h8 (by simp)]; rfl
  have g2 : (region ++ []).getD 2 0 = 4 := by
    rw [getD_of_take region [] _ 8 2 h8 (by simp)]; rfl
  have g4 : (region ++ []).getD 4 0 = (i.SourceRoutingIPs.length + 255) % 256 := by
    rw [getD_of_take region [] _ 8 4 h8 (by simp)]; rfl
  have gl : (region ++ []).length = 8 + 16 * i.SourceRoutingIPs.length := by
    rw [List.append_nil, hlen]; omega
  have hpos : 1 ≤ i.SourceRoutingIPs.length →
      (afterSerialize i opts).LastEntry = (i.SourceRoutingIPs.length - 1) % 256 := by
    intro h; rw [hLE]; omega
  have hzero : i.SourceRoutingIPs.length = 0 → (afterSerialize i opts).LastEntry = 255 := by
    intro h; rw [hLE, h]
  by_cases hz : i.SourceRoutingIPs.length = 0
  · have hd := decode_type4_short {} (region ++ []) df (by rw [gl, g1]; omega) g2
      (by rw [gl, g4]; omega)
    exact ⟨_, _, hs, rfl, hHL, g1, hLE, g4, hpos, hzero, gl, hd, ⟨fun h => Option.noConfusion h, fun h => absurd h (by omega)⟩,
      fun _ => rfl, fun h => by omega⟩
  by_cases hbig : 128 ≤ i.SourceRoutingIPs.length
  · have hd := decode_mismatch {} (region ++ []) df (by rw [gl, g1]; omega)
    exact ⟨_, _, hs, rfl, hHL, g1, hLE, g4, hpos, hzero, gl, hd, ⟨fun h => Option.noConfusion h, fun h => absurd h (by omega)⟩,
      fun h => absurd h hz, fun _ => rfl⟩
  · have hd := decode_type4_ok {} (region ++ []) df (by rw [gl, g1]; omega) g2
      (by rw [gl, g4]; omega)
    exact ⟨_, _, hs, rfl, hHL, g1, hLE, g4, hpos, hzero, gl, hd, ⟨fun _ => (by omega), fun _ => rfl⟩,
      fun h => absurd h hz, fun h => absurd h hbig⟩

/-- Witness of C20: without addresses `LastEntry` is 255 and the 8 octets
produced are rejected as too short. -/
theorem fix_lengths_wrap_around_witness :
    ∃ s r, SerializeTo noSegments {} { FixLengths := true } = some s ∧
      s.hdr.LastEntry = 255 ∧ s.buf.length = 8 ∧
      DecodeFromBytes {} s.buf {} = some r ∧ r.err = some .dataTooShort :=
  have ⟨s, r, hs, _, _, _, hle, _, _, _, hlen, hr, _, hz, _⟩ := fix_lengths_wrap_around noSegments {}
    { FixLengths := true } {} rfl rfl rfl
  ⟨s, r, hs, hle, hlen, hr, hz rfl⟩

end GopacketSrv6
